import Mathlib

/-!
Shallow embedding of the FactMarrow agent-orchestration layer
(`src/agents/orchestrator.py`) and verification of the frozen claims.

Modelling conventions:
* Python `datetime.now()` is modelled by a monotone `Nat` clock threaded
  through the run; every `now()` call returns the current clock value and
  advances it by one.
* Exceptions are modelled by `Except String`, the `String` being `str(e)`.
  Python's mutable-by-reference `AnalysisState` means mutations performed
  before an exception propagates are retained, so every operation returns
  the (possibly mutated) run context alongside its `Except` result.
* The agent's underlying reasoning call (`_mock_api_call` / a real API) and
  `json.loads` are opaque in the source; they are modelled by an `Oracle`
  supplying each call's outcome and each phase's parse function.  Parsed
  JSON dictionaries are modelled by structures whose fields are `Option`s:
  `none` means the key is absent (so `dict.get` falls back to its default).
  For the metadata dictionary, whose keys are read with `dict.get` both with
  and without defaults, fields are two-level `Option`s so that an explicit
  JSON `null` is distinguishable from an absent key.
* `agent_logs` (a Python dict of lists, keyed by agent, each line
  timestamped) is flattened to the insertion-ordered list of
  (agent, message) pairs; each `add_log` consumes one clock tick for its
  timestamp, as in the source.
* Executor invocations, status assignments and `completed_at` assignments
  are additionally recorded in an event trace so that scheduling claims
  (phase ordering, "no phase executes after a terminal status") are
  statable.
-/

namespace FactMarrow

/-- Analysis workflow status (`AnalysisStatus` in the source). -/
inductive AnalysisStatus where
  | queued
  | processing
  | documentParsing
  | claimExtraction
  | verification
  | reportGeneration
  | qualityReview
  | completed
  | failed
deriving DecidableEq, Repr

/-- Position of a status in the forward progression of the workflow;
`failed` sits past every other status since it is reachable by a forward
jump from any non-terminal state. -/
def statusRank : AnalysisStatus → Nat
  | .queued => 0
  | .processing => 1
  | .documentParsing => 2
  | .claimExtraction => 3
  | .verification => 4
  | .reportGeneration => 5
  | .qualityReview => 6
  | .completed => 7
  | .failed => 8

/-- Whether a status is terminal (`completed` or `failed`). -/
def AnalysisStatus.isTerminal : AnalysisStatus → Bool
  | .completed => true
  | .failed => true
  | _ => false

/-- Extracted document metadata (`DocumentMetadata` dataclass). -/
structure DocumentMetadata where
  title : Option String := none
  authors : Option (List String) := none
  publication_date : Option String := none
  institution : Option String := none
  abstract : Option String := none
  keywords : Option (List String) := none
deriving DecidableEq, Repr

/-- A claim extracted from the document (`ExtractedClaim` dataclass). -/
structure ExtractedClaim where
  text : String
  type : String
  location : Option String := none
  confidence : Rat := 1/2
  supporting_text : Option String := none
deriving DecidableEq, Repr

/-- Result of claim verification (`VerificationResult` dataclass). -/
structure VerificationResult where
  claim_text : String
  verification_status : String
  confidence : Rat
  supporting_sources : List String := []
  contradicting_sources : List String := []
  notes : Option String := none
deriving DecidableEq, Repr

/-- Complete state of an analysis execution (`AnalysisState` dataclass). -/
structure AnalysisState where
  analysis_id : Int
  document_id : Int
  status : AnalysisStatus := .queued
  document_metadata : Option DocumentMetadata := none
  extracted_claims : List ExtractedClaim := []
  verifications : List VerificationResult := []
  report_content : Option String := none
  qa_feedback : Option String := none
  errors : List String := []
  started_at : Option Nat := none
  completed_at : Option Nat := none
  agent_logs : List (String × String) := []
deriving DecidableEq, Repr

/-- `AnalysisState.add_log`: append a message to the agent's log. -/
def AnalysisState.add_log (s : AnalysisState) (agent message : String) :
    AnalysisState :=
  { s with agent_logs := s.agent_logs ++ [(agent, message)] }

/-- `AnalysisState.add_error`: record an error string. -/
def AnalysisState.add_error (s : AnalysisState) (e : String) : AnalysisState :=
  { s with errors := s.errors ++ [e] }

/-- Observable events of one orchestrator run, in order of occurrence. -/
inductive Event where
  | setStatus (s : AnalysisStatus)
  | execCall (agent : String)
  | setCompletedAt (t : Nat)
deriving DecidableEq, Repr

/-- Run context: the mutable analysis state, the clock modelling
`datetime.now()`, and the event trace. -/
structure RunCtx where
  state : AnalysisState
  clock : Nat
  trace : List Event := []
deriving DecidableEq, Repr

/-- `state.add_log` as performed inside the orchestrator: the log line's
timestamp consumes one clock tick. -/
def RunCtx.addLog (c : RunCtx) (agent message : String) : RunCtx :=
  { c with state := c.state.add_log agent message, clock := c.clock + 1 }

/-- `state.add_error` inside a run. -/
def RunCtx.addError (c : RunCtx) (e : String) : RunCtx :=
  { c with state := c.state.add_error e }

/-- Assignment `state.status = s`, recorded in the trace. -/
def RunCtx.setStatus (c : RunCtx) (s : AnalysisStatus) : RunCtx :=
  { c with state := { c.state with status := s },
           trace := c.trace ++ [Event.setStatus s] }

/-- Assignment `state.completed_at = datetime.now()`, recorded in the
trace; consumes one clock tick. -/
def RunCtx.setCompletedAt (c : RunCtx) : RunCtx :=
  { c with state := { c.state with completed_at := some c.clock },
           clock := c.clock + 1,
           trace := c.trace ++ [Event.setCompletedAt c.clock] }

/-!
Parsed JSON shapes.  Each phase calls `json.loads` on the executor's raw
string result and reads keys with `dict.get`; a structure field equal to
`none` models an absent key.  In `MetadataDict`, whose keys matter both
when absent and when explicitly `null`, the fields are two-level:
`none` = key absent, `some none` = key present with value `null`,
`some (some v)` = key present with value `v`.  Values are assumed
well-typed for their key (the claims under verification concern
missing-key defaulting, not cross-type leniency).
-/

/-- Parsed `metadata` sub-dictionary of the document-processing result. -/
structure MetadataDict where
  title : Option (Option String) := none
  authors : Option (Option (List String)) := none
  publication_date : Option (Option String) := none
  institution : Option (Option String) := none
  abstract : Option (Option String) := none
  keywords : Option (Option (List String)) := none
deriving DecidableEq, Repr

/-- Parsed top-level result of the document-processing executor. -/
structure MetadataParsed where
  metadata : Option MetadataDict := none
deriving DecidableEq, Repr

/-- Parsed dictionary for one claim in the fact-extraction result. -/
structure ClaimDict where
  text : Option String := none
  type : Option String := none
  location : Option String := none
  supporting_text : Option String := none
deriving DecidableEq, Repr

/-- Parsed top-level result of the fact-extraction executor. -/
structure FactParsed where
  claims : Option (List ClaimDict) := none
deriving DecidableEq, Repr

/-- Parsed result of one claim-verification executor call. -/
structure VerifParsed where
  verification_status : Option String := none
  confidence : Option Rat := none
  supporting_sources : Option (List String) := none
  contradicting_sources : Option (List String) := none
  notes : Option String := none
deriving DecidableEq, Repr

/-- Parsed result of the quality-review executor call. -/
structure QAParsed where
  feedback : Option String := none
  confidence : Option Rat := none
deriving DecidableEq, Repr

/-- Construction of the stored `DocumentMetadata` from the parsed result
(lines 487-492 of the source): `parsed_result.get('metadata', {})` then
`.get` per field — `title`, `publication_date`, `institution` with no
default, `authors` with default `[]`; `abstract` and `keywords` are not
passed, so they keep the dataclass default `None`. -/
def mkDocumentMetadata (p : MetadataParsed) : DocumentMetadata :=
  let md := p.metadata.getD {}
  { title := md.title.getD none
    authors := md.authors.getD (some [])
    publication_date := md.publication_date.getD none
    institution := md.institution.getD none }

/-- Construction of one stored `ExtractedClaim` from its parsed dictionary
(lines 537-542): `text` defaults to `''`, `type` to `'unknown'`,
`location` and `supporting_text` to `None`; `confidence` is not passed so
the dataclass default 0.5 applies. -/
def mkExtractedClaim (d : ClaimDict) : ExtractedClaim :=
  { text := d.text.getD ""
    type := d.type.getD "unknown"
    location := d.location
    supporting_text := d.supporting_text }

/-- Construction of one stored `VerificationResult` (lines 585-592):
`verification_status` defaults to `'uncertain'`, `confidence` to 0,
source lists to `[]`, `notes` to `None`. -/
def mkVerification (claimText : String) (p : VerifParsed) :
    VerificationResult :=
  { claim_text := claimText
    verification_status := p.verification_status.getD "uncertain"
    confidence := p.confidence.getD 0
    supporting_sources := p.supporting_sources.getD []
    contradicting_sources := p.contradicting_sources.getD []
    notes := p.notes }

/-- `AgentExecutor.execute_task` (lines 293-320).  The underlying API call
(`_mock_api_call` in the reference) is opaque; its outcome is the
`outcome` argument: `.ok raw` is the returned response text, `.error msg`
an exception with message `msg`.  On failure the executor records
`"Task execution failed: ..."` into the state's error list and re-raises
the original exception. -/
def execute_task (outcome : Except String String) (s : AnalysisState) :
    Except String String × AnalysisState :=
  match outcome with
  | .error msg => (.error msg, s.add_error ("Task execution failed: " ++ msg))
  | .ok raw => (.ok raw, s)

/-- Which executors the orchestrator initialised (`self.executors`
membership; `_initialize_executors` populates it from the agent
configuration, so an agent may be missing). -/
structure Env where
  hasExecutor : String → Bool

/-- Outcomes of the opaque parts of one analysis run: per phase, the
underlying API call's outcome and the `json.loads`-plus-key-reading step
as a parse function on the raw response.  Verification outcomes are
indexed by claim position.  The report-generation phase performs no
parsing (the raw response is stored directly), so it has no parse
component. -/
structure Oracle where
  docTask : Except String String
  docParse : String → Except String MetadataParsed
  factTask : Except String String
  factParse : String → Except String FactParsed
  verifTask : Nat → Except String String
  verifParse : Nat → String → Except String VerifParsed
  reportTask : Except String String
  qaTask : Except String String
  qaParse : String → Except String QAParsed

/-- One executor invocation followed by `json.loads` of its result, as
performed inside a phase body: records the invocation in the trace, runs
`execute_task`, and on success parses the raw response (a parse exception
propagates without any executor-recorded error, since `json.loads` runs
in the phase body, outside `execute_task`). -/
def runExecTask {α : Type} (agent : String) (task : Except String String)
    (parse : String → Except String α) (c : RunCtx) :
    Except String α × RunCtx :=
  let c1 : RunCtx := { c with trace := c.trace ++ [Event.execCall agent] }
  match execute_task task c1.state with
  | (.error msg, s) => (.error msg, { c1 with state := s })
  | (.ok raw, s) =>
    match parse raw with
    | .error msg => (.error msg, { c1 with state := s })
    | .ok v => (.ok v, { c1 with state := s })

/-- Phase 1: Document Processing (`_phase_document_processing`,
lines 440-501). -/
def phase_document_processing (env : Env) (o : Oracle) (c0 : RunCtx) :
    Except String Unit × RunCtx :=
  let c := c0.addLog "document_processor" "Starting document processing"
  if env.hasExecutor "document_processor" then
    match runExecTask "document_processor" o.docTask o.docParse c with
    | (.error msg, c) =>
      (.error msg, c.addError ("Document processing failed: " ++ msg))
    | (.ok p, c) =>
      let dm := mkDocumentMetadata p
      let c : RunCtx :=
        { c with state := { c.state with document_metadata := some dm } }
      let c := c.addLog "document_processor"
        ("Extracted metadata: " ++ dm.title.getD "None")
      (.ok (), c)
  else
    let msg := "Document processor executor not initialized"
    (.error msg, c.addError ("Document processing failed: " ++ msg))

/-- Phase 2: Fact Extraction (`_phase_fact_extraction`, lines 503-549). -/
def phase_fact_extraction (env : Env) (o : Oracle) (c0 : RunCtx) :
    Except String Unit × RunCtx :=
  let c := c0.addLog "fact_extractor" "Starting fact extraction"
  if env.hasExecutor "fact_extractor" then
    match runExecTask "fact_extractor" o.factTask o.factParse c with
    | (.error msg, c) =>
      (.error msg, c.addError ("Fact extraction failed: " ++ msg))
    | (.ok p, c) =>
      let claims := (p.claims.getD []).map mkExtractedClaim
      let c : RunCtx :=
        { c with state :=
            { c.state with
                extracted_claims := c.state.extracted_claims ++ claims } }
      let c := c.addLog "fact_extractor"
        ("Extracted " ++ toString c.state.extracted_claims.length ++ " claims")
      (.ok (), c)
  else
    let msg := "Fact extractor executor not initialized"
    (.error msg, c.addError ("Fact extraction failed: " ++ msg))

/-- The claim loop of the Verification phase (lines 566-593): one executor
call per extracted claim, sequentially, appending the parsed result; the
first failing call aborts the loop with the exception propagating. -/
def verifyLoop (o : Oracle) (i : Nat) (claims : List ExtractedClaim)
    (c : RunCtx) : Except String Unit × RunCtx :=
  match claims with
  | [] => (.ok (), c)
  | claim :: rest =>
    match runExecTask "verification_specialist" (o.verifTask i)
        (o.verifParse i) c with
    | (.error msg, c) => (.error msg, c)
    | (.ok p, c) =>
      let c : RunCtx :=
        { c with state :=
            { c.state with
                verifications :=
                  c.state.verifications ++ [mkVerification claim.text p] } }
      verifyLoop o (i + 1) rest c

/-- Phase 3: Verification (`_phase_verification`, lines 551-602). -/
def phase_verification (env : Env) (o : Oracle) (c0 : RunCtx) :
    Except String Unit × RunCtx :=
  let c := c0.addLog "verification_specialist" "Starting claim verification"
  if env.hasExecutor "verification_specialist" then
    match verifyLoop o 0 c.state.extracted_claims c with
    | (.error msg, c) =>
      (.error msg, c.addError ("Verification failed: " ++ msg))
    | (.ok _, c) =>
      let c := c.addLog "verification_specialist"
        ("Verified " ++ toString c.state.verifications.length ++ " claims")
      (.ok (), c)
  else
    let msg := "Verification specialist executor not initialized"
    (.error msg, c.addError ("Verification failed: " ++ msg))

/-- Phase 4: Report Generation (`_phase_report_generation`,
lines 604-644); the raw response is stored directly, without parsing. -/
def phase_report_generation (env : Env) (o : Oracle) (c0 : RunCtx) :
    Except String Unit × RunCtx :=
  let c := c0.addLog "report_writer" "Starting report generation"
  if env.hasExecutor "report_writer" then
    match runExecTask "report_writer" o.reportTask Except.ok c with
    | (.error msg, c) =>
      (.error msg, c.addError ("Report generation failed: " ++ msg))
    | (.ok raw, c) =>
      let c : RunCtx :=
        { c with state := { c.state with report_content := some raw } }
      let c := c.addLog "report_writer" "Report generation completed"
      (.ok (), c)
  else
    let msg := "Report writer executor not initialized"
    (.error msg, c.addError ("Report generation failed: " ++ msg))

/-- Phase 5: Quality Review (`_phase_quality_review`, lines 646-690). -/
def phase_quality_review (env : Env) (o : Oracle) (c0 : RunCtx) :
    Except String Unit × RunCtx :=
  let c := c0.addLog "quality_reviewer" "Starting quality review"
  if env.hasExecutor "quality_reviewer" then
    match runExecTask "quality_reviewer" o.qaTask o.qaParse c with
    | (.error msg, c) =>
      (.error msg, c.addError ("Quality review failed: " ++ msg))
    | (.ok p, c) =>
      let c : RunCtx :=
        { c with state := { c.state with qa_feedback := p.feedback } }
      let c := c.addLog "quality_reviewer"
        ("Quality review completed, confidence: " ++
          (match p.confidence with
           | some q => toString q
           | none => "None"))
      (.ok (), c)
  else
    let msg := "Quality reviewer executor not initialized"
    (.error msg, c.addError ("Quality review failed: " ++ msg))

/-- The `except Exception` handler of `execute_analysis` (lines 432-436):
set status to `failed`, stamp `completed_at`, record the workflow-level
error. -/
def failWorkflow (c : RunCtx) (msg : String) : RunCtx :=
  ((c.setStatus .failed).setCompletedAt).addError
    ("Workflow execution failed: " ++ msg)

/-- Sequencing of one phase inside the top-level `try`: on a phase
exception, divert to the failure handler; otherwise continue. -/
def contPhase (res : Except String Unit × RunCtx) (k : RunCtx → RunCtx) :
    RunCtx :=
  match res with
  | (.error msg, c) => failWorkflow c msg
  | (.ok _, c) => k c

/-- The body of `execute_analysis`'s `try`/`except` (lines 403-436): run
the five phases in order, each preceded by its status assignment; on
success set `completed` and stamp `completed_at`; any phase exception is
caught by the top-level handler (`failWorkflow`), which records the
error and yields the failed state. -/
def workflowBody (env : Env) (o : Oracle) (c : RunCtx) : RunCtx :=
  contPhase (phase_document_processing env o (c.setStatus .documentParsing))
    fun c =>
  contPhase (phase_fact_extraction env o (c.setStatus .claimExtraction))
    fun c =>
  contPhase (phase_verification env o (c.setStatus .verification)) fun c =>
  contPhase (phase_report_generation env o (c.setStatus .reportGeneration))
    fun c =>
  contPhase (phase_quality_review env o (c.setStatus .qualityReview)) fun c =>
    ((c.setStatus .completed).setCompletedAt).addLog "orchestrator"
      "Analysis workflow completed successfully"

/-- The state constructed on entry to `execute_analysis` (lines 395-399):
status defaults to `queued`, `started_at` is stamped with the current
time `t`, everything else empty. -/
def initCtx (analysis_id document_id : Int) (t : Nat) : RunCtx where
  state :=
    { analysis_id := analysis_id
      document_id := document_id
      started_at := some t }
  clock := t + 1

/-- `WorkflowOrchestrator.execute_analysis` (lines 377-438): create the
state (status `queued`, `started_at` stamped), log the start, then run
the guarded workflow body.  `t` is the clock at entry.  The registration
in `active_analyses` (line 401) stores a reference to this same state
and cannot fail; it is not modelled separately. -/
def execute_analysis (env : Env) (o : Oracle) (analysis_id document_id : Int)
    (t : Nat) : RunCtx :=
  workflowBody env o
    ((initCtx analysis_id document_id t).addLog "orchestrator"
      "Analysis workflow started")

/-- `MCPServerManager` connection state: configured server names, the map
of open sessions (session objects modelled by numeric identifiers), and
the generator for fresh session identifiers. -/
structure MCPServerManager where
  servers : List String
  sessions : List (String × Nat) := []
  nextSession : Nat := 0
deriving DecidableEq, Repr

/-- `MCPServerManager.get_session` (lines 222-242): reuse an existing
session, return `none` for an unconfigured server, otherwise lazily
create and cache a session. -/
def MCPServerManager.get_session (m : MCPServerManager) (server_name : String) :
    Option Nat × MCPServerManager :=
  match m.sessions.lookup server_name with
  | some s => (some s, m)
  | none =>
    if m.servers.contains server_name then
      (some m.nextSession,
       { m with sessions := m.sessions ++ [(server_name, m.nextSession)],
                nextSession := m.nextSession + 1 })
    else (none, m)

/-- `MCPServerManager.close_all` (lines 244-249): close every open session
and clear the session map. -/
def MCPServerManager.close_all (m : MCPServerManager) : MCPServerManager :=
  { m with sessions := [] }

/-- Check that the first list is an initial segment of the second,
character by character. -/
def hasPref : List Char → List Char → Bool
  | [], _ => true
  | _ :: _, [] => false
  | a :: as, b :: bs => a == b && hasPref as bs

/-- Check that the needle occurs contiguously somewhere in the hay. -/
def hasSub (needle : List Char) : List Char → Bool
  | [] => needle.isEmpty
  | b :: bs => hasPref needle (b :: bs) || hasSub needle bs

/-- String containment: `needle` occurs contiguously in `hay` (the sense
in which an error entry "references" a phrase). -/
def strContains (hay needle : String) : Bool :=
  hasSub needle.toList hay.toList

/-- The sequence of statuses assigned during a run, read off the trace. -/
def statusesOf (tr : List Event) : List AnalysisStatus :=
  tr.filterMap fun e =>
    match e with
    | .setStatus s => some s
    | _ => none

/-- One legal status transition: the source status is non-terminal and
the target lies strictly further along the forward progression (with
`failed` past everything, a jump to `failed` from any non-terminal
status is forward). -/
def forwardStep (a b : AnalysisStatus) : Bool :=
  !a.isTerminal && decide (statusRank a < statusRank b)

/-- Every consecutive pair of the given status sequence, starting from
`first`, is a legal forward transition. -/
def forwardChainB (first : AnalysisStatus) : List AnalysisStatus → Bool
  | [] => true
  | s :: rest => forwardStep first s && forwardChainB s rest

/-- Whether the event is a `completed_at` assignment. -/
def Event.isSetCompletedAt : Event → Bool
  | .setCompletedAt _ => true
  | _ => false

/-- Whether the event is an invocation of the named agent's executor. -/
def Event.isCallOf (agent : String) : Event → Bool
  | .execCall a => a == agent
  | _ => false

/-- Whether the event is any executor invocation. -/
def Event.isExec : Event → Bool
  | .execCall _ => true
  | _ => false

/-- No executor invocation occurs after a terminal status has been
assigned. -/
def noExecAfterTerminal : List Event → Bool
  | [] => true
  | Event.setStatus s :: rest =>
    if s.isTerminal then rest.all fun e => !e.isExec
    else noExecAfterTerminal rest
  | _ :: rest => noExecAfterTerminal rest

/-- Every `completed_at` assignment in the trace happens immediately
after the assignment of a terminal status. -/
def completedAtAdjacent : List Event → Bool
  | Event.setStatus s :: Event.setCompletedAt _ :: rest =>
    s.isTerminal && completedAtAdjacent rest
  | Event.setCompletedAt _ :: _ => false
  | _ :: rest => completedAtAdjacent rest
  | [] => true

/-- The orchestrator's resource handle relevant to shutdown. -/
structure Orchestrator where
  mcp_manager : MCPServerManager
deriving DecidableEq, Repr

/-- `WorkflowOrchestrator.close` (lines 703-706): delegates to
`close_all`. -/
def Orchestrator.close (o : Orchestrator) : Orchestrator :=
  { o with mcp_manager := o.mcp_manager.close_all }

/-- Every event of the list is an invocation of the named agent's
executor (the form of a phase's contribution to the trace). -/
def allCalls (agent : String) (l : List Event) : Prop :=
  ∀ e ∈ l, e = Event.execCall agent

/-- The hypothesis of the "all phases complete normally" claims: every
executor is configured and every underlying call and parse succeeds. -/
def OracleOk (env : Env) (o : Oracle) : Prop :=
  env.hasExecutor "document_processor" = true ∧
  env.hasExecutor "fact_extractor" = true ∧
  env.hasExecutor "verification_specialist" = true ∧
  env.hasExecutor "report_writer" = true ∧
  env.hasExecutor "quality_reviewer" = true ∧
  (∃ raw p, o.docTask = .ok raw ∧ o.docParse raw = .ok p) ∧
  (∃ raw p, o.factTask = .ok raw ∧ o.factParse raw = .ok p) ∧
  (∀ j, ∃ raw v, o.verifTask j = .ok raw ∧ o.verifParse j raw = .ok v) ∧
  (∃ raw, o.reportTask = .ok raw) ∧
  (∃ raw p, o.qaTask = .ok raw ∧ o.qaParse raw = .ok p)

/-! Concrete instances used by the witness theorems. -/

def envW : Env := ⟨fun _ => true⟩

def p1W : MetadataParsed :=
  { metadata := some { title := some (some "Study") } }

def d1W : ClaimDict := { text := some "c1" }

def d2W : ClaimDict := { text := some "c2", type := some "causal" }

def pfW : FactParsed := { claims := some [d1W, d2W] }

def vW : VerifParsed :=
  { verification_status := some "supported", confidence := some 80 }

def qaW : QAParsed := { feedback := some "fine" }

def oracleW : Oracle where
  docTask := .ok "r1"
  docParse := fun _ => .ok p1W
  factTask := .ok "r2"
  factParse := fun _ => .ok pfW
  verifTask := fun _ => .ok "r3"
  verifParse := fun _ _ => .ok vW
  reportTask := .ok "REPORT"
  qaTask := .ok "r5"
  qaParse := fun _ => .ok qaW

def oracleZeroW : Oracle := { oracleW with factParse := fun _ => .ok {} }

def oracleFailW : Oracle :=
  { oracleW with
      verifTask := fun i => if i = 0 then .ok "r3" else .error "boom" }

def cW : RunCtx :=
  { state :=
      { analysis_id := 1
        document_id := 1
        extracted_claims := [{ text := "c1", type := "unknown" }] }
    clock := 0 }

def cW0 : RunCtx :=
  { state := { analysis_id := 1, document_id := 1 }, clock := 0 }

def mW : MCPServerManager := { servers := ["search"] }

/-- Case analysis for one executor-plus-parse step. -/
theorem runExecTask_cases {α : Type} (agent : String)
    (task : Except String String) (parse : String → Except String α)
    (c : RunCtx) :
    (∃ msg, task = .error msg ∧
      runExecTask agent task parse c =
        (.error msg,
         { c with trace := c.trace ++ [Event.execCall agent],
                  state := c.state.add_error
                    ("Task execution failed: " ++ msg) })) ∨
    (∃ raw msg, task = .ok raw ∧ parse raw = .error msg ∧
      runExecTask agent task parse c =
        (.error msg,
         { c with trace := c.trace ++ [Event.execCall agent] })) ∨
    (∃ raw v, task = .ok raw ∧ parse raw = .ok v ∧
      runExecTask agent task parse c =
        (.ok v, { c with trace := c.trace ++ [Event.execCall agent] })) := by
  rcases task with msg | raw
  · left
    exact ⟨msg, rfl, rfl⟩
  · rcases hp : parse raw with msg | v
    · right; left
      refine ⟨raw, msg, rfl, hp, ?_⟩
      simp [runExecTask, execute_task, hp]
    · right; right
      refine ⟨raw, v, rfl, hp, ?_⟩
      simp [runExecTask, execute_task, hp]

theorem phase1_frame (env : Env) (o : Oracle) (c : RunCtx) :
    ∃ l, allCalls "document_processor" l ∧
      (phase_document_processing env o c).2.trace = c.trace ++ l ∧
      (phase_document_processing env o c).2.state.status = c.state.status ∧
      (phase_document_processing env o c).2.state.started_at
        = c.state.started_at ∧
      (phase_document_processing env o c).2.state.completed_at
        = c.state.completed_at ∧
      c.clock ≤ (phase_document_processing env o c).2.clock := by
  rcases runExecTask_cases "document_processor" o.docTask o.docParse
      (c.addLog "document_processor" "Starting document processing")
    with ⟨msg, ht, hr⟩ | ⟨raw, msg, ht, hp, hr⟩ | ⟨raw, v, ht, hp, hr⟩ <;>
    by_cases hE : env.hasExecutor "document_processor" <;>
    refine ⟨if env.hasExecutor "document_processor" then
        [Event.execCall "document_processor"] else [], ?_, ?_⟩ <;>
    simp_all [phase_document_processing, allCalls, hr,
      RunCtx.addLog, RunCtx.addError, AnalysisState.add_log,
      AnalysisState.add_error] <;>
    omega

theorem phase2_frame (env : Env) (o : Oracle) (c : RunCtx) :
    ∃ l, allCalls "fact_extractor" l ∧
      (phase_fact_extraction env o c).2.trace = c.trace ++ l ∧
      (phase_fact_extraction env o c).2.state.status = c.state.status ∧
      (phase_fact_extraction env o c).2.state.started_at
        = c.state.started_at ∧
      (phase_fact_extraction env o c).2.state.completed_at
        = c.state.completed_at ∧
      c.clock ≤ (phase_fact_extraction env o c).2.clock := by
  rcases runExecTask_cases "fact_extractor" o.factTask o.factParse
      (c.addLog "fact_extractor" "Starting fact extraction")
    with ⟨msg, ht, hr⟩ | ⟨raw, msg, ht, hp, hr⟩ | ⟨raw, v, ht, hp, hr⟩ <;>
    by_cases hE : env.hasExecutor "fact_extractor" <;>
    refine ⟨if env.hasExecutor "fact_extractor" then
        [Event.execCall "fact_extractor"] else [], ?_, ?_⟩ <;>
    simp_all [phase_fact_extraction, allCalls, hr,
      RunCtx.addLog, RunCtx.addError, AnalysisState.add_log,
      AnalysisState.add_error] <;>
    omega

theorem phase4_frame (env : Env) (o : Oracle) (c : RunCtx) :
    ∃ l, allCalls "report_writer" l ∧
      (phase_report_generation env o c).2.trace = c.trace ++ l ∧
      (phase_report_generation env o c).2.state.status = c.state.status ∧
      (phase_report_generation env o c).2.state.started_at
        = c.state.started_at ∧
      (phase_report_generation env o c).2.state.completed_at
        = c.state.completed_at ∧
      c.clock ≤ (phase_report_generation env o c).2.clock := by
  rcases runExecTask_cases "report_writer" o.reportTask Except.ok
      (c.addLog "report_writer" "Starting report generation")
    with ⟨msg, ht, hr⟩ | ⟨raw, msg, ht, hp, hr⟩ | ⟨raw, v, ht, hp, hr⟩ <;>
    by_cases hE : env.hasExecutor "report_writer" <;>
    refine ⟨if env.hasExecutor "report_writer" then
        [Event.execCall "report_writer"] else [], ?_, ?_⟩ <;>
    simp_all [phase_report_generation, allCalls, hr,
      RunCtx.addLog, RunCtx.addError, AnalysisState.add_log,
      AnalysisState.add_error] <;>
    omega

theorem phase5_frame (env : Env) (o : Oracle) (c : RunCtx) :
    ∃ l, allCalls "quality_reviewer" l ∧
      (phase_quality_review env o c).2.trace = c.trace ++ l ∧
      (phase_quality_review env o c).2.state.status = c.state.status ∧
      (phase_quality_review env o c).2.state.started_at
        = c.state.started_at ∧
      (phase_quality_review env o c).2.state.completed_at
        = c.state.completed_at ∧
      c.clock ≤ (phase_quality_review env o c).2.clock := by
  rcases runExecTask_cases "quality_reviewer" o.qaTask o.qaParse
      (c.addLog "quality_reviewer" "Starting quality review")
    with ⟨msg, ht, hr⟩ | ⟨raw, msg, ht, hp, hr⟩ | ⟨raw, v, ht, hp, hr⟩ <;>
    by_cases hE : env.hasExecutor "quality_reviewer" <;>
    refine ⟨if env.hasExecutor "quality_reviewer" then
        [Event.execCall "quality_reviewer"] else [], ?_, ?_⟩ <;>
    simp_all [phase_quality_review, allCalls, hr,
      RunCtx.addLog, RunCtx.addError, AnalysisState.add_log,
      AnalysisState.add_error] <;>
    omega

theorem verifyLoop_frame (o : Oracle) (claims : List ExtractedClaim) :
    ∀ (i : Nat) (c : RunCtx),
      ∃ l, allCalls "verification_specialist" l ∧
        (verifyLoop o i claims c).2.trace = c.trace ++ l ∧
        (verifyLoop o i claims c).2.state.status = c.state.status ∧
        (verifyLoop o i claims c).2.state.started_at = c.state.started_at ∧
        (verifyLoop o i claims c).2.state.completed_at
          = c.state.completed_at ∧
        c.clock ≤ (verifyLoop o i claims c).2.clock := by
  induction claims with
  | nil =>
    intro i c
    exact ⟨[], by simp [allCalls, verifyLoop]⟩
  | cons claim rest ih =>
    intro i c
    rcases runExecTask_cases "verification_specialist" (o.verifTask i)
        (o.verifParse i) c
      with ⟨msg, ht, hr⟩ | ⟨raw, msg, ht, hp, hr⟩ | ⟨raw, v, ht, hp, hr⟩
    · exact ⟨[Event.execCall "verification_specialist"],
        by simp [allCalls, verifyLoop, hr, RunCtx.addError,
          AnalysisState.add_error]⟩
    · exact ⟨[Event.execCall "verification_specialist"],
        by simp [allCalls, verifyLoop, hr, RunCtx.addError,
          AnalysisState.add_error]⟩
    · obtain ⟨l, hall, htr, hst, hsa, hca, hck⟩ :=
        ih (i + 1)
          { c with trace := c.trace ++ [Event.execCall "verification_specialist"],
                   state := { c.state with
                     verifications := c.state.verifications ++
                       [mkVerification claim.text v] } }
      refine ⟨Event.execCall "verification_specialist" :: l, ?_, ?_⟩
      · intro e he
        rcases List.mem_cons.mp he with h | h
        · exact h
        · exact hall e h
      · simp only [verifyLoop, hr] at *
        refine ⟨?_, ?_, ?_, ?_, ?_⟩ <;>
          simp_all

theorem phase3_frame (env : Env) (o : Oracle) (c : RunCtx) :
    ∃ l, allCalls "verification_specialist" l ∧
      (phase_verification env o c).2.trace = c.trace ++ l ∧
      (phase_verification env o c).2.state.status = c.state.status ∧
      (phase_verification env o c).2.state.started_at
        = c.state.started_at ∧
      (phase_verification env o c).2.state.completed_at
        = c.state.completed_at ∧
      c.clock ≤ (phase_verification env o c).2.clock := by
  by_cases hE : env.hasExecutor "verification_specialist"
  · obtain ⟨l, hall, htr, hst, hsa, hca, hck⟩ :=
      verifyLoop_frame o
        (c.addLog "verification_specialist"
          "Starting claim verification").state.extracted_claims 0
        (c.addLog "verification_specialist" "Starting claim verification")
    refine ⟨l, hall, ?_⟩
    rcases hv : verifyLoop o 0
        (c.addLog "verification_specialist"
          "Starting claim verification").state.extracted_claims
        (c.addLog "verification_specialist" "Starting claim verification")
      with ⟨r, c1⟩
    rw [hv] at htr hst hsa hca hck
    cases r <;>
      simp_all [phase_verification, hv, RunCtx.addLog, RunCtx.addError,
        AnalysisState.add_log, AnalysisState.add_error] <;>
      omega
  · exact ⟨[], by
      simp [allCalls, phase_verification, hE, RunCtx.addLog, RunCtx.addError,
        AnalysisState.add_log, AnalysisState.add_error]⟩

theorem phase1_of_ok (env : Env) (o : Oracle) (c : RunCtx)
    (h : (phase_document_processing env o c).1 = .ok ()) :
    ∃ raw p, o.docTask = .ok raw ∧ o.docParse raw = .ok p ∧
      env.hasExecutor "document_processor" = true ∧
      (phase_document_processing env o c).2.state.errors = c.state.errors ∧
      (phase_document_processing env o c).2.state.document_metadata
        = some (mkDocumentMetadata p) ∧
      (phase_document_processing env o c).2.state.extracted_claims
        = c.state.extracted_claims ∧
      (phase_document_processing env o c).2.state.verifications
        = c.state.verifications ∧
      (phase_document_processing env o c).2.state.report_content
        = c.state.report_content ∧
      (phase_document_processing env o c).2.state.qa_feedback
        = c.state.qa_feedback := by
  by_cases hE : env.hasExecutor "document_processor"
  · rcases runExecTask_cases "document_processor" o.docTask o.docParse
        (c.addLog "document_processor" "Starting document processing")
      with ⟨msg, ht, hr⟩ | ⟨raw, msg, ht, hp, hr⟩ | ⟨raw, v, ht, hp, hr⟩
    · exact absurd h (by simp [phase_document_processing, hE, hr])
    · exact absurd h (by simp [phase_document_processing, hE, hr])
    · refine ⟨raw, v, ht, hp, hE, ?_⟩
      simp only [phase_document_processing, hE, if_true, hr]
      simp [RunCtx.addLog, AnalysisState.add_log]
  · exact absurd h (by simp [phase_document_processing, hE])

theorem phase1_ok_of (env : Env) (o : Oracle) (c : RunCtx)
    (hE : env.hasExecutor "document_processor" = true)
    (raw : String) (p : MetadataParsed)
    (ht : o.docTask = .ok raw) (hp : o.docParse raw = .ok p) :
    (phase_document_processing env o c).1 = .ok () := by
  simp [phase_document_processing, hE, ht, hp, runExecTask, execute_task]

theorem phase2_of_ok (env : Env) (o : Oracle) (c : RunCtx)
    (h : (phase_fact_extraction env o c).1 = .ok ()) :
    ∃ raw p, o.factTask = .ok raw ∧ o.factParse raw = .ok p ∧
      env.hasExecutor "fact_extractor" = true ∧
      (phase_fact_extraction env o c).2.state.errors = c.state.errors ∧
      (phase_fact_extraction env o c).2.state.extracted_claims
        = c.state.extracted_claims
          ++ (p.claims.getD []).map mkExtractedClaim ∧
      (phase_fact_extraction env o c).2.state.verifications
        = c.state.verifications ∧
      (phase_fact_extraction env o c).2.state.document_metadata
        = c.state.document_metadata ∧
      (phase_fact_extraction env o c).2.state.report_content
        = c.state.report_content ∧
      (phase_fact_extraction env o c).2.state.qa_feedback
        = c.state.qa_feedback := by
  by_cases hE : env.hasExecutor "fact_extractor"
  · rcases runExecTask_cases "fact_extractor" o.factTask o.factParse
        (c.addLog "fact_extractor" "Starting fact extraction")
      with ⟨msg, ht, hr⟩ | ⟨raw, msg, ht, hp, hr⟩ | ⟨raw, v, ht, hp, hr⟩
    · exact absurd h (by simp [phase_fact_extraction, hE, hr])
    · exact absurd h (by simp [phase_fact_extraction, hE, hr])
    · refine ⟨raw, v, ht, hp, hE, ?_⟩
      simp only [phase_fact_extraction, hE, if_true, hr]
      simp [RunCtx.addLog, AnalysisState.add_log]
  · exact absurd h (by simp [phase_fact_extraction, hE])

theorem phase2_ok_of (env : Env) (o : Oracle) (c : RunCtx)
    (hE : env.hasExecutor "fact_extractor" = true)
    (raw : String) (p : FactParsed)
    (ht : o.factTask = .ok raw) (hp : o.factParse raw = .ok p) :
    (phase_fact_extraction env o c).1 = .ok () := by
  simp [phase_fact_extraction, hE, ht, hp, runExecTask, execute_task]

theorem phase4_of_ok (env : Env) (o : Oracle) (c : RunCtx)
    (h : (phase_report_generation env o c).1 = .ok ()) :
    ∃ raw, o.reportTask = .ok raw ∧
      env.hasExecutor "report_writer" = true ∧
      (phase_report_generation env o c).2.state.errors = c.state.errors ∧
      (phase_report_generation env o c).2.state.report_content
        = some raw ∧
      (phase_report_generation env o c).2.state.extracted_claims
        = c.state.extracted_claims ∧
      (phase_report_generation env o c).2.state.verifications
        = c.state.verifications ∧
      (phase_report_generation env o c).2.state.document_metadata
        = c.state.document_metadata ∧
      (phase_report_generation env o c).2.state.qa_feedback
        = c.state.qa_feedback := by
  by_cases hE : env.hasExecutor "report_writer"
  · rcases runExecTask_cases "report_writer" o.reportTask Except.ok
        (c.addLog "report_writer" "Starting report generation")
      with ⟨msg, ht, hr⟩ | ⟨raw, msg, ht, hp, hr⟩ | ⟨raw, v, ht, hp, hr⟩
    · exact absurd h (by simp [phase_report_generation, hE, hr])
    · exact absurd h (by simp [phase_report_generation, hE, hr])
    · refine ⟨raw, ht, hE, ?_⟩
      have hv : v = raw := by
        simpa using hp.symm
      subst hv
      simp only [phase_report_generation, hE, if_true, hr]
      simp [RunCtx.addLog, AnalysisState.add_log]
  · exact absurd h (by simp [phase_report_generation, hE])

theorem phase4_ok_of (env : Env) (o : Oracle) (c : RunCtx)
    (hE : env.hasExecutor "report_writer" = true)
    (raw : String) (ht : o.reportTask = .ok raw) :
    (phase_report_generation env o c).1 = .ok () := by
  simp [phase_report_generation, hE, ht, runExecTask, execute_task]

theorem phase5_of_ok (env : Env) (o : Oracle) (c : RunCtx)
    (h : (phase_quality_review env o c).1 = .ok ()) :
    ∃ raw p, o.qaTask = .ok raw ∧ o.qaParse raw = .ok p ∧
      env.hasExecutor "quality_reviewer" = true ∧
      (phase_quality_review env o c).2.state.errors = c.state.errors ∧
      (phase_quality_review env o c).2.state.qa_feedback = p.feedback ∧
      (phase_quality_review env o c).2.state.extracted_claims
        = c.state.extracted_claims ∧
      (phase_quality_review env o c).2.state.verifications
        = c.state.verifications ∧
      (phase_quality_review env o c).2.state.document_metadata
        = c.state.document_metadata ∧
      (phase_quality_review env o c).2.state.report_content
        = c.state.report_content := by
  by_cases hE : env.hasExecutor "quality_reviewer"
  · rcases runExecTask_cases "quality_reviewer" o.qaTask o.qaParse
        (c.addLog "quality_reviewer" "Starting quality review")
      with ⟨msg, ht, hr⟩ | ⟨raw, msg, ht, hp, hr⟩ | ⟨raw, v, ht, hp, hr⟩
    · exact absurd h (by simp [phase_quality_review, hE, hr])
    · exact absurd h (by simp [phase_quality_review, hE, hr])
    · refine ⟨raw, v, ht, hp, hE, ?_⟩
      simp only [phase_quality_review, hE, if_true, hr]
      simp [RunCtx.addLog, AnalysisState.add_log]
  · exact absurd h (by simp [phase_quality_review, hE])

theorem phase5_ok_of (env : Env) (o : Oracle) (c : RunCtx)
    (hE : env.hasExecutor "quality_reviewer" = true)
    (raw : String) (p : QAParsed)
    (ht : o.qaTask = .ok raw) (hp : o.qaParse raw = .ok p) :
    (phase_quality_review env o c).1 = .ok () := by
  simp [phase_quality_review, hE, ht, hp, runExecTask, execute_task]

theorem verifyLoop_of_ok (o : Oracle) (claims : List ExtractedClaim) :
    ∀ (i : Nat) (c : RunCtx),
      (verifyLoop o i claims c).1 = .ok () →
      ∃ L l,
        (verifyLoop o i claims c).2.state.verifications
          = c.state.verifications ++ L ∧
        L.map (fun v => v.claim_text) = claims.map (fun cl => cl.text) ∧
        (verifyLoop o i claims c).2.state.errors = c.state.errors ∧
        (verifyLoop o i claims c).2.state.extracted_claims
          = c.state.extracted_claims ∧
        (verifyLoop o i claims c).2.state.document_metadata
          = c.state.document_metadata ∧
        (verifyLoop o i claims c).2.state.report_content
          = c.state.report_content ∧
        (verifyLoop o i claims c).2.state.qa_feedback
          = c.state.qa_feedback ∧
        (verifyLoop o i claims c).2.trace = c.trace ++ l ∧
        allCalls "verification_specialist" l ∧
        l.length = claims.length := by
  induction claims with
  | nil =>
    intro i c _
    exact ⟨[], [], by simp [allCalls, verifyLoop]⟩
  | cons claim rest ih =>
    intro i c h
    rcases runExecTask_cases "verification_specialist" (o.verifTask i)
        (o.verifParse i) c
      with ⟨msg, ht, hr⟩ | ⟨raw, msg, ht, hp, hr⟩ | ⟨raw, v, ht, hp, hr⟩
    · exact absurd h (by simp [verifyLoop, hr])
    · exact absurd h (by simp [verifyLoop, hr])
    · have h2 : (verifyLoop o (i + 1) rest
          { c with
              trace := c.trace ++ [Event.execCall "verification_specialist"],
              state := { c.state with
                verifications := c.state.verifications ++
                  [mkVerification claim.text v] } }).1 = .ok () := by
        simpa [verifyLoop, hr] using h
      obtain ⟨L, l, hv, hmap, herr, hcl, hmd, hrp, hqa, htr, hall, hlen⟩ :=
        ih (i + 1) _ h2
      have hall2 : allCalls "verification_specialist"
          (Event.execCall "verification_specialist" :: l) := by
        intro e he
        rcases List.mem_cons.mp he with h | h
        · exact h
        · exact hall e h
      refine ⟨mkVerification claim.text v :: L,
        Event.execCall "verification_specialist" :: l,
        ?_, ?_, ?_, ?_, ?_, ?_, ?_, ?_, hall2, ?_⟩ <;>
        (try simp only [verifyLoop, hr]) <;>
        simp_all [mkVerification]

theorem verifyLoop_ok_of (o : Oracle)
    (hOr : ∀ j, ∃ raw v, o.verifTask j = .ok raw ∧
      o.verifParse j raw = .ok v)
    (claims : List ExtractedClaim) :
    ∀ (i : Nat) (c : RunCtx), (verifyLoop o i claims c).1 = .ok () := by
  induction claims with
  | nil => intro i c; simp [verifyLoop]
  | cons claim rest ih =>
    intro i c
    obtain ⟨raw, v, ht, hp⟩ := hOr i
    simp only [verifyLoop, runExecTask, execute_task, ht, hp]
    exact ih (i + 1) _

theorem phase3_of_ok (env : Env) (o : Oracle) (c : RunCtx)
    (h : (phase_verification env o c).1 = .ok ()) :
    env.hasExecutor "verification_specialist" = true ∧
    ∃ L l,
      (phase_verification env o c).2.state.verifications
        = c.state.verifications ++ L ∧
      L.map (fun v => v.claim_text)
        = c.state.extracted_claims.map (fun cl => cl.text) ∧
      (phase_verification env o c).2.state.errors = c.state.errors ∧
      (phase_verification env o c).2.state.extracted_claims
        = c.state.extracted_claims ∧
      (phase_verification env o c).2.state.document_metadata
        = c.state.document_metadata ∧
      (phase_verification env o c).2.state.report_content
        = c.state.report_content ∧
      (phase_verification env o c).2.state.qa_feedback
        = c.state.qa_feedback ∧
      (phase_verification env o c).2.trace = c.trace ++ l ∧
      allCalls "verification_specialist" l ∧
      l.length = c.state.extracted_claims.length := by
  by_cases hE : env.hasExecutor "verification_specialist"
  · rcases hv : verifyLoop o 0
        (c.addLog "verification_specialist"
          "Starting claim verification").state.extracted_claims
        (c.addLog "verification_specialist" "Starting claim verification")
      with ⟨r, c1⟩
    cases r with
    | error msg =>
      exact absurd h (by simp [phase_verification, hE, hv])
    | ok _ =>
      have h2 := verifyLoop_of_ok o
        (c.addLog "verification_specialist"
          "Starting claim verification").state.extracted_claims 0
        (c.addLog "verification_specialist" "Starting claim verification")
        (by rw [hv])
      rw [hv] at h2
      obtain ⟨L, l, hvf, hmap, herr, hcl, hmd, hrp, hqa, htr, hall, hlen⟩ := h2
      refine ⟨hE, L, l, ?_⟩
      simp only [phase_verification, hE, if_true, hv]
      refine ⟨?_, ?_, ?_, ?_, ?_, ?_, ?_, ?_, hall, ?_⟩ <;>
        simp_all [RunCtx.addLog, AnalysisState.add_log]
  · exact absurd h (by simp [phase_verification, hE])

theorem phase3_ok_of (env : Env) (o : Oracle) (c : RunCtx)
    (hE : env.hasExecutor "verification_specialist" = true)
    (hOr : ∀ j, ∃ raw v, o.verifTask j = .ok raw ∧
      o.verifParse j raw = .ok v) :
    (phase_verification env o c).1 = .ok () := by
  rcases hv : verifyLoop o 0
      (c.addLog "verification_specialist"
        "Starting claim verification").state.extracted_claims
      (c.addLog "verification_specialist" "Starting claim verification")
    with ⟨r, c1⟩
  have hok := verifyLoop_ok_of o hOr
    (c.addLog "verification_specialist"
      "Starting claim verification").state.extracted_claims 0
    (c.addLog "verification_specialist" "Starting claim verification")
  rw [hv] at hok
  cases r with
  | error msg => exact absurd hok (by simp)
  | ok _ => simp [phase_verification, hE, hv]

theorem failWorkflow_status (c : RunCtx) (msg : String) :
    (failWorkflow c msg).state.status = .failed := rfl

theorem countP_isCallOf_self (a : String) (l : List Event)
    (h : allCalls a l) :
    l.countP (Event.isCallOf a) = l.length := by
  induction l with
  | nil => rfl
  | cons e rest ih =>
    have he : e = Event.execCall a := h e (List.mem_cons_self e rest)
    subst he
    rw [List.countP_cons]
    simp [Event.isCallOf,
      ih (fun x hx => h x (List.mem_cons_of_mem _ hx))]

theorem countP_isCallOf_ne (a b : String) (l : List Event)
    (h : allCalls a l) (hne : (a == b) = false) :
    l.countP (Event.isCallOf b) = 0 := by
  induction l with
  | nil => rfl
  | cons e rest ih =>
    have he : e = Event.execCall a := h e (List.mem_cons_self e rest)
    subst he
    rw [List.countP_cons]
    simp [Event.isCallOf, hne,
      ih (fun x hx => h x (List.mem_cons_of_mem _ hx))]

theorem workflowBody_ok (env : Env) (o : Oracle) (c : RunCtx)
    (h : OracleOk env o) :
    (workflowBody env o c).state.status = .completed ∧
    (workflowBody env o c).state.errors = c.state.errors ∧
    (workflowBody env o c).state.started_at = c.state.started_at ∧
    (∃ tc, (workflowBody env o c).state.completed_at = some tc ∧
      c.clock ≤ tc) ∧
    ∃ newClaims,
      (workflowBody env o c).state.extracted_claims
        = c.state.extracted_claims ++ newClaims ∧
      (∃ raw p, o.factTask = .ok raw ∧ o.factParse raw = .ok p ∧
        newClaims = (p.claims.getD []).map mkExtractedClaim) ∧
      (∃ L, (workflowBody env o c).state.verifications
          = c.state.verifications ++ L ∧
        L.map (fun v => v.claim_text)
          = (c.state.extracted_claims ++ newClaims).map
              (fun cl => cl.text)) ∧
      (∃ l, (workflowBody env o c).trace = c.trace ++ l ∧
        l.countP (Event.isCallOf "verification_specialist")
          = (c.state.extracted_claims ++ newClaims).length) := by
  obtain ⟨hE1, hE2, hE3, hE4, hE5, ⟨raw1, p1, ht1, hp1⟩,
    ⟨raw2, p2, ht2, hp2⟩, hOr, ⟨raw4, ht4⟩, ⟨raw5, p5, ht5, hp5⟩⟩ := h
  -- phase 1
  rcases h1 : phase_document_processing env o (c.setStatus .documentParsing)
    with ⟨r1, c1⟩
  have h1ok : r1 = .ok () := by
    have := phase1_ok_of env o (c.setStatus .documentParsing)
      hE1 raw1 p1 ht1 hp1
    rw [h1] at this
    exact this
  subst h1ok
  obtain ⟨_, _, _, _, _, herr1, hmd1, hcl1, hvf1, hrp1, hqa1⟩ :=
    phase1_of_ok env o (c.setStatus .documentParsing) (by rw [h1])
  obtain ⟨l1, hall1, htr1, hst1, hsa1, hca1, hck1⟩ :=
    phase1_frame env o (c.setStatus .documentParsing)
  rw [h1] at herr1 hmd1 hcl1 hvf1 hrp1 hqa1 htr1 hst1 hsa1 hca1 hck1
  simp only [RunCtx.setStatus] at herr1 hmd1 hcl1 hvf1 hrp1 hqa1 htr1 hst1 hsa1 hca1 hck1
  -- phase 2
  rcases h2 : phase_fact_extraction env o (c1.setStatus .claimExtraction)
    with ⟨r2, c2⟩
  have h2ok : r2 = .ok () := by
    have := phase2_ok_of env o (c1.setStatus .claimExtraction)
      hE2 raw2 p2 ht2 hp2
    rw [h2] at this
    exact this
  subst h2ok
  obtain ⟨raw2x, p2x, ht2x, hp2x, _, herr2, hcl2, hvf2, hmd2, hrp2, hqa2⟩ :=
    phase2_of_ok env o (c1.setStatus .claimExtraction) (by rw [h2])
  obtain ⟨l2, hall2, htr2, hst2, hsa2, hca2, hck2⟩ :=
    phase2_frame env o (c1.setStatus .claimExtraction)
  rw [h2] at herr2 hcl2 hvf2 hmd2 hrp2 hqa2 htr2 hst2 hsa2 hca2 hck2
  simp only [RunCtx.setStatus] at herr2 hcl2 hvf2 hmd2 hrp2 hqa2 htr2 hst2 hsa2 hca2 hck2
  -- phase 3
  rcases h3 : phase_verification env o (c2.setStatus .verification)
    with ⟨r3, c3⟩
  have h3ok : r3 = .ok () := by
    have := phase3_ok_of env o (c2.setStatus .verification) hE3 hOr
    rw [h3] at this
    exact this
  subst h3ok
  obtain ⟨_, L3, l3, hvf3, hmap3, herr3, hcl3, hmd3, hrp3, hqa3,
      htr3, hall3, hlen3⟩ :=
    phase3_of_ok env o (c2.setStatus .verification) (by rw [h3])
  obtain ⟨l3f, hall3f, htr3f, hst3, hsa3, hca3, hck3⟩ :=
    phase3_frame env o (c2.setStatus .verification)
  rw [h3] at hvf3 herr3 hcl3 hmd3 hrp3 hqa3 htr3 hst3 hsa3 hca3 hck3
  simp only [RunCtx.setStatus] at hvf3 hmap3 herr3 hcl3 hmd3 hrp3 hqa3 htr3 hst3 hsa3 hca3 hck3 hlen3
  -- phase 4
  rcases h4 : phase_report_generation env o (c3.setStatus .reportGeneration)
    with ⟨r4, c4⟩
  have h4ok : r4 = .ok () := by
    have := phase4_ok_of env o (c3.setStatus .reportGeneration) hE4 raw4 ht4
    rw [h4] at this
    exact this
  subst h4ok
  obtain ⟨raw4x, ht4x, _, herr4, hrp4, hcl4, hvf4, hmd4, hqa4⟩ :=
    phase4_of_ok env o (c3.setStatus .reportGeneration) (by rw [h4])
  obtain ⟨l4, hall4, htr4, hst4, hsa4, hca4, hck4⟩ :=
    phase4_frame env o (c3.setStatus .reportGeneration)
  rw [h4] at herr4 hrp4 hcl4 hvf4 hmd4 hqa4 htr4 hst4 hsa4 hca4 hck4
  simp only [RunCtx.setStatus] at herr4 hrp4 hcl4 hvf4 hmd4 hqa4 htr4 hst4 hsa4 hca4 hck4
  -- phase 5
  rcases h5 : phase_quality_review env o (c4.setStatus .qualityReview)
    with ⟨r5, c5⟩
  have h5ok : r5 = .ok () := by
    have := phase5_ok_of env o (c4.setStatus .qualityReview)
      hE5 raw5 p5 ht5 hp5
    rw [h5] at this
    exact this
  subst h5ok
  obtain ⟨raw5x, p5x, ht5x, hp5x, _, herr5, hqa5, hcl5, hvf5, hmd5, hrp5⟩ :=
    phase5_of_ok env o (c4.setStatus .qualityReview) (by rw [h5])
  obtain ⟨l5, hall5, htr5, hst5, hsa5, hca5, hck5⟩ :=
    phase5_frame env o (c4.setStatus .qualityReview)
  rw [h5] at herr5 hqa5 hcl5 hvf5 hmd5 hrp5 htr5 hst5 hsa5 hca5 hck5
  simp only [RunCtx.setStatus] at herr5 hqa5 hcl5 hvf5 hmd5 hrp5 htr5 hst5 hsa5 hca5 hck5
  -- assemble
  have hw : workflowBody env o c =
      ((c5.setStatus .completed).setCompletedAt).addLog
        "orchestrator" "Analysis workflow completed successfully" := by
    simp [workflowBody, h1, h2, h3, h4, h5, contPhase]
  rw [hw]
  have hRu : ∀ (x : RunCtx) (ag m : String),
      (x.addLog ag m).state.errors = x.state.errors := by
    intro x ag m
    simp [RunCtx.addLog, AnalysisState.add_log]
  refine ⟨?_, ?_, ?_, ⟨c5.clock, ?_, ?_⟩, ?_⟩
  · simp [RunCtx.addLog, RunCtx.setCompletedAt, RunCtx.setStatus,
      AnalysisState.add_log]
  · simp only [RunCtx.addLog, RunCtx.setCompletedAt, RunCtx.setStatus,
      AnalysisState.add_log]
    rw [herr5, herr4, herr3, herr2, herr1]
  · simp only [RunCtx.addLog, RunCtx.setCompletedAt, RunCtx.setStatus,
      AnalysisState.add_log]
    rw [hsa5, hsa4, hsa3, hsa2, hsa1]
  · simp [RunCtx.addLog, RunCtx.setCompletedAt, RunCtx.setStatus,
      AnalysisState.add_log]
  · omega
  · refine ⟨(p2x.claims.getD []).map mkExtractedClaim, ?_,
      ⟨raw2x, p2x, ht2x, hp2x, rfl⟩, ⟨L3, ?_, ?_⟩, ?_⟩
    · simp only [RunCtx.addLog, RunCtx.setCompletedAt, RunCtx.setStatus,
        AnalysisState.add_log]
      rw [hcl5, hcl4, hcl3, hcl2, hcl1]
    · simp only [RunCtx.addLog, RunCtx.setCompletedAt, RunCtx.setStatus,
        AnalysisState.add_log]
      rw [hvf5, hvf4, hvf3, hvf2, hvf1]
    · rw [hmap3, hcl2, hcl1]
    · refine ⟨Event.setStatus .documentParsing :: l1 ++
        Event.setStatus .claimExtraction :: l2 ++
        Event.setStatus .verification :: l3 ++
        Event.setStatus .reportGeneration :: l4 ++
        Event.setStatus .qualityReview :: l5 ++
        [Event.setStatus .completed, Event.setCompletedAt c5.clock], ?_, ?_⟩
      · simp only [RunCtx.addLog, RunCtx.setCompletedAt, RunCtx.setStatus,
          AnalysisState.add_log]
        rw [htr5, htr4, htr3, htr2, htr1]
        simp
      · have e1 := countP_isCallOf_ne "document_processor"
          "verification_specialist" l1 hall1 (by decide)
        have e2 := countP_isCallOf_ne "fact_extractor"
          "verification_specialist" l2 hall2 (by decide)
        have e3 := countP_isCallOf_self "verification_specialist" l3 hall3
        have e4 := countP_isCallOf_ne "report_writer"
          "verification_specialist" l4 hall4 (by decide)
        have e5 := countP_isCallOf_ne "quality_reviewer"
          "verification_specialist" l5 hall5 (by decide)
        have hs : ∀ s, Event.isCallOf "verification_specialist"
            (Event.setStatus s) = false := fun _ => rfl
        have hsc : ∀ t, Event.isCallOf "verification_specialist"
            (Event.setCompletedAt t) = false := fun _ => rfl
        rw [hcl2, hcl1] at hlen3
        simp [List.countP_cons, List.countP_append, hs, hsc,
          e1, e2, e3, e4, e5]
        simp at hlen3
        omega

theorem workflowBody_shape (env : Env) (o : Oracle) (c : RunCtx) :
    ∃ ts,
      (∃ l1, allCalls "document_processor" l1 ∧
        (workflowBody env o c).trace = c.trace ++
          (Event.setStatus .documentParsing :: l1 ++
           [Event.setStatus .failed, Event.setCompletedAt ts])) ∨
      (∃ l1 l2, allCalls "document_processor" l1 ∧
        allCalls "fact_extractor" l2 ∧
        (workflowBody env o c).trace = c.trace ++
          (Event.setStatus .documentParsing :: l1 ++
           Event.setStatus .claimExtraction :: l2 ++
           [Event.setStatus .failed, Event.setCompletedAt ts])) ∨
      (∃ l1 l2 l3, allCalls "document_processor" l1 ∧
        allCalls "fact_extractor" l2 ∧
        allCalls "verification_specialist" l3 ∧
        (workflowBody env o c).trace = c.trace ++
          (Event.setStatus .documentParsing :: l1 ++
           Event.setStatus .claimExtraction :: l2 ++
           Event.setStatus .verification :: l3 ++
           [Event.setStatus .failed, Event.setCompletedAt ts])) ∨
      (∃ l1 l2 l3 l4, allCalls "document_processor" l1 ∧
        allCalls "fact_extractor" l2 ∧
        allCalls "verification_specialist" l3 ∧
        allCalls "report_writer" l4 ∧
        (workflowBody env o c).trace = c.trace ++
          (Event.setStatus .documentParsing :: l1 ++
           Event.setStatus .claimExtraction :: l2 ++
           Event.setStatus .verification :: l3 ++
           Event.setStatus .reportGeneration :: l4 ++
           [Event.setStatus .failed, Event.setCompletedAt ts])) ∨
      (∃ l1 l2 l3 l4 l5, allCalls "document_processor" l1 ∧
        allCalls "fact_extractor" l2 ∧
        allCalls "verification_specialist" l3 ∧
        allCalls "report_writer" l4 ∧
        allCalls "quality_reviewer" l5 ∧
        (workflowBody env o c).trace = c.trace ++
          (Event.setStatus .documentParsing :: l1 ++
           Event.setStatus .claimExtraction :: l2 ++
           Event.setStatus .verification :: l3 ++
           Event.setStatus .reportGeneration :: l4 ++
           Event.setStatus .qualityReview :: l5 ++
           [Event.setStatus .failed, Event.setCompletedAt ts])) ∨
      (∃ l1 l2 l3 l4 l5, allCalls "document_processor" l1 ∧
        allCalls "fact_extractor" l2 ∧
        allCalls "verification_specialist" l3 ∧
        allCalls "report_writer" l4 ∧
        allCalls "quality_reviewer" l5 ∧
        (workflowBody env o c).trace = c.trace ++
          (Event.setStatus .documentParsing :: l1 ++
           Event.setStatus .claimExtraction :: l2 ++
           Event.setStatus .verification :: l3 ++
           Event.setStatus .reportGeneration :: l4 ++
           Event.setStatus .qualityReview :: l5 ++
           [Event.setStatus .completed, Event.setCompletedAt ts])) := by
  rcases h1 : phase_document_processing env o (c.setStatus .documentParsing)
    with ⟨r1, c1⟩
  obtain ⟨l1, hall1, htr1, hst1, hsa1, hca1, hck1⟩ :=
    phase1_frame env o (c.setStatus .documentParsing)
  rw [h1] at htr1
  simp only [RunCtx.setStatus] at htr1
  cases r1 with
  | error msg =>
    have hw : workflowBody env o c = failWorkflow c1 msg := by
      simp [workflowBody, h1, contPhase]
    refine ⟨c1.clock, Or.inl ⟨l1, hall1, ?_⟩⟩
    rw [hw]
    simp only [failWorkflow, RunCtx.addError, RunCtx.setCompletedAt,
      RunCtx.setStatus, AnalysisState.add_error]
    rw [htr1]
    simp
  | ok u1 =>
    cases u1
    rcases h2 : phase_fact_extraction env o (c1.setStatus .claimExtraction)
      with ⟨r2, c2⟩
    obtain ⟨l2, hall2, htr2, hst2, hsa2, hca2, hck2⟩ :=
      phase2_frame env o (c1.setStatus .claimExtraction)
    rw [h2] at htr2
    simp only [RunCtx.setStatus] at htr2
    cases r2 with
    | error msg =>
      have hw : workflowBody env o c = failWorkflow c2 msg := by
        simp [workflowBody, h1, h2, contPhase]
      refine ⟨c2.clock, Or.inr (Or.inl ⟨l1, l2, hall1, hall2, ?_⟩)⟩
      rw [hw]
      simp only [failWorkflow, RunCtx.addError, RunCtx.setCompletedAt,
        RunCtx.setStatus, AnalysisState.add_error]
      rw [htr2, htr1]
      simp
    | ok u2 =>
      cases u2
      rcases h3 : phase_verification env o (c2.setStatus .verification)
        with ⟨r3, c3⟩
      obtain ⟨l3, hall3, htr3, hst3, hsa3, hca3, hck3⟩ :=
        phase3_frame env o (c2.setStatus .verification)
      rw [h3] at htr3
      simp only [RunCtx.setStatus] at htr3
      cases r3 with
      | error msg =>
        have hw : workflowBody env o c = failWorkflow c3 msg := by
          simp [workflowBody, h1, h2, h3, contPhase]
        refine ⟨c3.clock, Or.inr (Or.inr (Or.inl
          ⟨l1, l2, l3, hall1, hall2, hall3, ?_⟩))⟩
        rw [hw]
        simp only [failWorkflow, RunCtx.addError, RunCtx.setCompletedAt,
          RunCtx.setStatus, AnalysisState.add_error]
        rw [htr3, htr2, htr1]
        simp
      | ok u3 =>
        cases u3
        rcases h4 : phase_report_generation env o
            (c3.setStatus .reportGeneration) with ⟨r4, c4⟩
        obtain ⟨l4, hall4, htr4, hst4, hsa4, hca4, hck4⟩ :=
          phase4_frame env o (c3.setStatus .reportGeneration)
        rw [h4] at htr4
        simp only [RunCtx.setStatus] at htr4
        cases r4 with
        | error msg =>
          have hw : workflowBody env o c = failWorkflow c4 msg := by
            simp [workflowBody, h1, h2, h3, h4, contPhase]
          refine ⟨c4.clock, Or.inr (Or.inr (Or.inr (Or.inl
            ⟨l1, l2, l3, l4, hall1, hall2, hall3, hall4, ?_⟩)))⟩
          rw [hw]
          simp only [failWorkflow, RunCtx.addError, RunCtx.setCompletedAt,
            RunCtx.setStatus, AnalysisState.add_error]
          rw [htr4, htr3, htr2, htr1]
          simp
        | ok u4 =>
          cases u4
          rcases h5 : phase_quality_review env o
              (c4.setStatus .qualityReview) with ⟨r5, c5⟩
          obtain ⟨l5, hall5, htr5, hst5, hsa5, hca5, hck5⟩ :=
            phase5_frame env o (c4.setStatus .qualityReview)
          rw [h5] at htr5
          simp only [RunCtx.setStatus] at htr5
          cases r5 with
          | error msg =>
            have hw : workflowBody env o c = failWorkflow c5 msg := by
              simp [workflowBody, h1, h2, h3, h4, h5, contPhase]
            refine ⟨c5.clock, Or.inr (Or.inr (Or.inr (Or.inr (Or.inl
              ⟨l1, l2, l3, l4, l5, hall1, hall2, hall3, hall4, hall5,
                ?_⟩))))⟩
            rw [hw]
            simp only [failWorkflow, RunCtx.addError, RunCtx.setCompletedAt,
              RunCtx.setStatus, AnalysisState.add_error]
            rw [htr5, htr4, htr3, htr2, htr1]
            simp
          | ok u5 =>
            cases u5
            have hw : workflowBody env o c =
                ((c5.setStatus .completed).setCompletedAt).addLog
                  "orchestrator"
                  "Analysis workflow completed successfully" := by
              simp [workflowBody, h1, h2, h3, h4, h5, contPhase]
            refine ⟨c5.clock, Or.inr (Or.inr (Or.inr (Or.inr (Or.inr
              ⟨l1, l2, l3, l4, l5, hall1, hall2, hall3, hall4, hall5,
                ?_⟩))))⟩
            rw [hw]
            simp only [RunCtx.addLog, RunCtx.setCompletedAt,
              RunCtx.setStatus, AnalysisState.add_log]
            rw [htr5, htr4, htr3, htr2, htr1]
            simp

theorem statusesOf_cons_set (s : AnalysisStatus) (r : List Event) :
    statusesOf (Event.setStatus s :: r) = s :: statusesOf r := by
  simp [statusesOf]

theorem statusesOf_cons_exec (a : String) (r : List Event) :
    statusesOf (Event.execCall a :: r) = statusesOf r := by
  simp [statusesOf]

theorem statusesOf_cons_sca (t : Nat) (r : List Event) :
    statusesOf (Event.setCompletedAt t :: r) = statusesOf r := by
  simp [statusesOf]

theorem statusesOf_nil : statusesOf [] = [] := rfl

theorem statusesOf_append (l r : List Event) :
    statusesOf (l ++ r) = statusesOf l ++ statusesOf r := by
  simp [statusesOf]

theorem statusesOf_calls (a : String) (l : List Event)
    (h : allCalls a l) : statusesOf l = [] := by
  induction l with
  | nil => rfl
  | cons e rest ih =>
    have he : e = Event.execCall a := h e (List.mem_cons_self e rest)
    subst he
    rw [statusesOf_cons_exec]
    exact ih fun x hx => h x (List.mem_cons_of_mem _ hx)

theorem noExec_cons_set_nonterm (s : AnalysisStatus)
    (h : s.isTerminal = false) (r : List Event) :
    noExecAfterTerminal (Event.setStatus s :: r) = noExecAfterTerminal r := by
  simp [noExecAfterTerminal, h]

theorem noExec_append_calls (a : String) (l : List Event)
    (h : allCalls a l) (r : List Event) :
    noExecAfterTerminal (l ++ r) = noExecAfterTerminal r := by
  induction l with
  | nil => rfl
  | cons e rest ih =>
    have he : e = Event.execCall a := h e (List.mem_cons_self e rest)
    subst he
    simp only [List.cons_append, noExecAfterTerminal]
    exact ih fun x hx => h x (List.mem_cons_of_mem _ hx)

theorem countP_sca_calls (a : String) (l : List Event)
    (h : allCalls a l) : l.countP Event.isSetCompletedAt = 0 := by
  induction l with
  | nil => rfl
  | cons e rest ih =>
    have he : e = Event.execCall a := h e (List.mem_cons_self e rest)
    subst he
    rw [List.countP_cons]
    simp [Event.isSetCompletedAt,
      ih fun x hx => h x (List.mem_cons_of_mem _ hx)]

theorem adj_append_calls (a : String) (l : List Event)
    (h : allCalls a l) (r : List Event) :
    completedAtAdjacent (l ++ r) = completedAtAdjacent r := by
  induction l with
  | nil => rfl
  | cons e rest ih =>
    have he : e = Event.execCall a := h e (List.mem_cons_self e rest)
    subst he
    simp only [List.cons_append, completedAtAdjacent]
    exact ih fun x hx => h x (List.mem_cons_of_mem _ hx)

theorem adj_cons_set_calls_set (a : String) (l : List Event)
    (h : allCalls a l) (s s2 : AnalysisStatus) (r : List Event) :
    completedAtAdjacent (Event.setStatus s :: (l ++ Event.setStatus s2 :: r))
      = completedAtAdjacent (l ++ Event.setStatus s2 :: r) := by
  cases l with
  | nil => simp [completedAtAdjacent]
  | cons e rest =>
    have he : e = Event.execCall a := h e (List.mem_cons_self e rest)
    subst he
    simp [completedAtAdjacent]

theorem contPhase_elim {P : RunCtx → Prop}
    (res : Except String Unit × RunCtx) (k : RunCtx → RunCtx)
    (hfail : ∀ c msg, P (failWorkflow c msg)) (hok : ∀ c, P (k c)) :
    P (contPhase res k) := by
  rcases res with ⟨r, c⟩
  cases r with
  | error msg => exact hfail c msg
  | ok u => exact hok c

theorem workflowBody_terminal (env : Env) (o : Oracle) (c : RunCtx) :
    ((workflowBody env o c).state.status = .completed ∨
     (workflowBody env o c).state.status = .failed) ∧
    ∃ tc, (workflowBody env o c).state.completed_at = some tc := by
  unfold workflowBody
  refine contPhase_elim
    (P := fun x => (x.state.status = .completed ∨ x.state.status = .failed) ∧
      ∃ tc, x.state.completed_at = some tc)
    _ _ (fun c msg => ⟨Or.inr rfl, c.clock, rfl⟩) fun c1 => ?_
  refine contPhase_elim
    (P := fun x => (x.state.status = .completed ∨ x.state.status = .failed) ∧
      ∃ tc, x.state.completed_at = some tc)
    _ _ (fun c msg => ⟨Or.inr rfl, c.clock, rfl⟩) fun c2 => ?_
  refine contPhase_elim
    (P := fun x => (x.state.status = .completed ∨ x.state.status = .failed) ∧
      ∃ tc, x.state.completed_at = some tc)
    _ _ (fun c msg => ⟨Or.inr rfl, c.clock, rfl⟩) fun c3 => ?_
  refine contPhase_elim
    (P := fun x => (x.state.status = .completed ∨ x.state.status = .failed) ∧
      ∃ tc, x.state.completed_at = some tc)
    _ _ (fun c msg => ⟨Or.inr rfl, c.clock, rfl⟩) fun c4 => ?_
  refine contPhase_elim
    (P := fun x => (x.state.status = .completed ∨ x.state.status = .failed) ∧
      ∃ tc, x.state.completed_at = some tc)
    _ _ (fun c msg => ⟨Or.inr rfl, c.clock, rfl⟩)
    fun c5 => ⟨Or.inl rfl, c5.clock, rfl⟩

/-- Claim C3: in every run of `execute_analysis`, the statuses assigned
to the state, starting from the initial `queued`, advance strictly
forward along the workflow order (`failed` ranking past every other
status, so a jump to `failed` is forward); no executor is invoked after
a terminal status is assigned; `completed_at` is assigned exactly once,
immediately after the terminal status assignment; and the returned
state has `completed_at` set. -/
theorem c3_status_forward_monotone (env : Env) (o : Oracle) (a d : Int) (t : Nat) :
    forwardChainB .queued
      (statusesOf (execute_analysis env o a d t).trace) = true ∧
    noExecAfterTerminal (execute_analysis env o a d t).trace = true ∧
    (execute_analysis env o a d t).trace.countP Event.isSetCompletedAt = 1 ∧
    completedAtAdjacent (execute_analysis env o a d t).trace = true ∧
    ((execute_analysis env o a d t).state.completed_at).isSome = true := by
  have hs : ∀ s, Event.isSetCompletedAt (Event.setStatus s) = false :=
    fun _ => rfl
  have hsc : ∀ u, Event.isSetCompletedAt (Event.setCompletedAt u) = true :=
    fun _ => rfl
  have hx : execute_analysis env o a d t = workflowBody env o
      ((initCtx a d t).addLog "orchestrator"
        "Analysis workflow started") := rfl
  obtain ⟨-, tc, hca⟩ := workflowBody_terminal env o
    ((initCtx a d t).addLog "orchestrator" "Analysis workflow started")
  simp only [RunCtx.addLog, AnalysisState.add_log, initCtx,
    List.nil_append] at hca
  obtain ⟨ts, hsh⟩ := workflowBody_shape env o
    ((initCtx a d t).addLog "orchestrator" "Analysis workflow started")
  rcases hsh with ⟨l1, g1, htr⟩ | ⟨l1, l2, g1, g2, htr⟩ |
    ⟨l1, l2, l3, g1, g2, g3, htr⟩ | ⟨l1, l2, l3, l4, g1, g2, g3, g4, htr⟩ |
    ⟨l1, l2, l3, l4, l5, g1, g2, g3, g4, g5, htr⟩ |
    ⟨l1, l2, l3, l4, l5, g1, g2, g3, g4, g5, htr⟩ <;>
  rw [hx, htr] <;>
  simp only [RunCtx.addLog, AnalysisState.add_log, initCtx,
    List.nil_append] <;>
  refine ⟨?_, ?_, ?_, ?_, ?_⟩
  -- case 1: failure in phase 1
  · simp only [statusesOf_cons_set, statusesOf_append, statusesOf_cons_sca,
      statusesOf_nil, statusesOf_calls _ _ g1]
    decide
  · simp [noExec_cons_set_nonterm .documentParsing rfl,
      noExec_append_calls _ _ g1, noExecAfterTerminal,
      AnalysisStatus.isTerminal, Event.isExec]
  · simp [List.countP_cons, List.countP_append, hs, hsc,
      countP_sca_calls _ _ g1]
  · simp [adj_cons_set_calls_set _ _ g1, adj_append_calls _ _ g1,
      completedAtAdjacent, AnalysisStatus.isTerminal]
  · simp [hca]
  -- case 2
  · simp only [statusesOf_cons_set, statusesOf_append, statusesOf_cons_sca,
      statusesOf_nil, statusesOf_calls _ _ g1, statusesOf_calls _ _ g2]
    decide
  · simp [noExec_cons_set_nonterm .documentParsing rfl,
      noExec_cons_set_nonterm .claimExtraction rfl,
      noExec_append_calls _ _ g1, noExec_append_calls _ _ g2,
      noExecAfterTerminal, AnalysisStatus.isTerminal, Event.isExec]
  · simp [List.countP_cons, List.countP_append, hs, hsc,
      countP_sca_calls _ _ g1, countP_sca_calls _ _ g2]
  · simp [adj_cons_set_calls_set _ _ g1, adj_cons_set_calls_set _ _ g2,
      adj_append_calls _ _ g1, adj_append_calls _ _ g2,
      completedAtAdjacent, AnalysisStatus.isTerminal]
  · simp [hca]
  -- case 3
  · simp only [statusesOf_cons_set, statusesOf_append, statusesOf_cons_sca,
      statusesOf_nil, statusesOf_calls _ _ g1, statusesOf_calls _ _ g2,
      statusesOf_calls _ _ g3]
    decide
  · simp [noExec_cons_set_nonterm .documentParsing rfl,
      noExec_cons_set_nonterm .claimExtraction rfl,
      noExec_cons_set_nonterm .verification rfl,
      noExec_append_calls _ _ g1, noExec_append_calls _ _ g2,
      noExec_append_calls _ _ g3,
      noExecAfterTerminal, AnalysisStatus.isTerminal, Event.isExec]
  · simp [List.countP_cons, List.countP_append, hs, hsc,
      countP_sca_calls _ _ g1, countP_sca_calls _ _ g2,
      countP_sca_calls _ _ g3]
  · simp [adj_cons_set_calls_set _ _ g1, adj_cons_set_calls_set _ _ g2,
      adj_cons_set_calls_set _ _ g3,
      adj_append_calls _ _ g1, adj_append_calls _ _ g2,
      adj_append_calls _ _ g3,
      completedAtAdjacent, AnalysisStatus.isTerminal]
  · simp [hca]
  -- case 4
  · simp only [statusesOf_cons_set, statusesOf_append, statusesOf_cons_sca,
      statusesOf_nil, statusesOf_calls _ _ g1, statusesOf_calls _ _ g2,
      statusesOf_calls _ _ g3, statusesOf_calls _ _ g4]
    decide
  · simp [noExec_cons_set_nonterm .documentParsing rfl,
      noExec_cons_set_nonterm .claimExtraction rfl,
      noExec_cons_set_nonterm .verification rfl,
      noExec_cons_set_nonterm .reportGeneration rfl,
      noExec_append_calls _ _ g1, noExec_append_calls _ _ g2,
      noExec_append_calls _ _ g3, noExec_append_calls _ _ g4,
      noExecAfterTerminal, AnalysisStatus.isTerminal, Event.isExec]
  · simp [List.countP_cons, List.countP_append, hs, hsc,
      countP_sca_calls _ _ g1, countP_sca_calls _ _ g2,
      countP_sca_calls _ _ g3, countP_sca_calls _ _ g4]
  · simp [adj_cons_set_calls_set _ _ g1, adj_cons_set_calls_set _ _ g2,
      adj_cons_set_calls_set _ _ g3, adj_cons_set_calls_set _ _ g4,
      adj_append_calls _ _ g1, adj_append_calls _ _ g2,
      adj_append_calls _ _ g3, adj_append_calls _ _ g4,
      completedAtAdjacent, AnalysisStatus.isTerminal]
  · simp [hca]
  -- case 5
  · simp only [statusesOf_cons_set, statusesOf_append, statusesOf_cons_sca,
      statusesOf_nil, statusesOf_calls _ _ g1, statusesOf_calls _ _ g2,
      statusesOf_calls _ _ g3, statusesOf_calls _ _ g4,
      statusesOf_calls _ _ g5]
    decide
  · simp [noExec_cons_set_nonterm .documentParsing rfl,
      noExec_cons_set_nonterm .claimExtraction rfl,
      noExec_cons_set_nonterm .verification rfl,
      noExec_cons_set_nonterm .reportGeneration rfl,
      noExec_cons_set_nonterm .qualityReview rfl,
      noExec_append_calls _ _ g1, noExec_append_calls _ _ g2,
      noExec_append_calls _ _ g3, noExec_append_calls _ _ g4,
      noExec_append_calls _ _ g5,
      noExecAfterTerminal, AnalysisStatus.isTerminal, Event.isExec]
  · simp [List.countP_cons, List.countP_append, hs, hsc,
      countP_sca_calls _ _ g1, countP_sca_calls _ _ g2,
      countP_sca_calls _ _ g3, countP_sca_calls _ _ g4,
      countP_sca_calls _ _ g5]
  · simp [adj_cons_set_calls_set _ _ g1, adj_cons_set_calls_set _ _ g2,
      adj_cons_set_calls_set _ _ g3, adj_cons_set_calls_set _ _ g4,
      adj_cons_set_calls_set _ _ g5,
      adj_append_calls _ _ g1, adj_append_calls _ _ g2,
      adj_append_calls _ _ g3, adj_append_calls _ _ g4,
      adj_append_calls _ _ g5,
      completedAtAdjacent, AnalysisStatus.isTerminal]
  · simp [hca]
  -- case 6: success
  · simp only [statusesOf_cons_set, statusesOf_append, statusesOf_cons_sca,
      statusesOf_nil, statusesOf_calls _ _ g1, statusesOf_calls _ _ g2,
      statusesOf_calls _ _ g3, statusesOf_calls _ _ g4,
      statusesOf_calls _ _ g5]
    decide
  · simp [noExec_cons_set_nonterm .documentParsing rfl,
      noExec_cons_set_nonterm .claimExtraction rfl,
      noExec_cons_set_nonterm .verification rfl,
      noExec_cons_set_nonterm .reportGeneration rfl,
      noExec_cons_set_nonterm .qualityReview rfl,
      noExec_append_calls _ _ g1, noExec_append_calls _ _ g2,
      noExec_append_calls _ _ g3, noExec_append_calls _ _ g4,
      noExec_append_calls _ _ g5,
      noExecAfterTerminal, AnalysisStatus.isTerminal, Event.isExec]
  · simp [List.countP_cons, List.countP_append, hs, hsc,
      countP_sca_calls _ _ g1, countP_sca_calls _ _ g2,
      countP_sca_calls _ _ g3, countP_sca_calls _ _ g4,
      countP_sca_calls _ _ g5]
  · simp [adj_cons_set_calls_set _ _ g1, adj_cons_set_calls_set _ _ g2,
      adj_cons_set_calls_set _ _ g3, adj_cons_set_calls_set _ _ g4,
      adj_cons_set_calls_set _ _ g5,
      adj_append_calls _ _ g1, adj_append_calls _ _ g2,
      adj_append_calls _ _ g3, adj_append_calls _ _ g4,
      adj_append_calls _ _ g5,
      completedAtAdjacent, AnalysisStatus.isTerminal]
  · simp [hca]

theorem hasPref_self_append (n r : List Char) :
    hasPref n (n ++ r) = true := by
  induction n with
  | nil => rfl
  | cons a as ih => simp [hasPref, ih]

theorem hasSub_of_hasPref (n h : List Char) (hp : hasPref n h = true) :
    hasSub n h = true := by
  cases h with
  | nil =>
    cases n with
    | nil => rfl
    | cons a as => simp [hasPref] at hp
  | cons b bs => simp [hasSub, hp]

theorem hasSub_append_of_not_head (v : Char) (nt : List Char)
    (p m : List Char) (hp : p.all (fun c => !(v == c)) = true) :
    hasSub (v :: nt) (p ++ m) = hasSub (v :: nt) m := by
  induction p with
  | nil => rfl
  | cons c cs ih =>
    simp only [List.all_cons, Bool.and_eq_true] at hp
    simp only [List.cons_append, hasSub, hasPref]
    have hvc : (v == c) = false := by
      rcases hp with ⟨h1, -⟩
      cases hveq : v == c
      · rfl
      · rw [hveq] at h1
        simp at h1
    simp [hvc, ih hp.2]

theorem strToList_append (s t : String) :
    (s ++ t).toList = s.toList ++ t.toList := rfl

theorem strContains_verif_prefixed (msg : String) :
    strContains ("Verification failed: " ++ msg) "Verification failed"
      = true := by
  have hd : "Verification failed: ".toList
      = "Verification failed".toList ++ (':' :: ' ' :: []) := by decide
  unfold strContains
  rw [strToList_append, hd, List.append_assoc]
  exact hasSub_of_hasPref _ _ (hasPref_self_append _ _)

theorem strContains_task_prefixed (msg : String)
    (h : strContains msg "Verification failed" = false) :
    strContains ("Task execution failed: " ++ msg) "Verification failed"
      = false := by
  have hn : "Verification failed".toList
      = 'V' :: "erification failed".toList := by decide
  unfold strContains at *
  rw [strToList_append, hn, hasSub_append_of_not_head _ _ _ _ (by decide)]
  rw [hn] at h
  exact h

theorem strContains_workflow_prefixed (msg : String)
    (h : strContains msg "Verification failed" = false) :
    strContains ("Workflow execution failed: " ++ msg) "Verification failed"
      = false := by
  have hn : "Verification failed".toList
      = 'V' :: "erification failed".toList := by decide
  unfold strContains at *
  rw [strToList_append, hn, hasSub_append_of_not_head _ _ _ _ (by decide)]
  rw [hn] at h
  exact h


/-- Claim C1: `executeAnalysis` never propagates a failure to the caller:
it is a total function into `AnalysisState` (no `Except` in its result
type), and the returned state's status is always `completed` or
`failed`; any failure is communicated only through that returned state's
status and error list. -/
theorem c1_execute_analysis_always_terminal (env : Env) (o : Oracle) (a d : Int) (t : Nat) :
    (execute_analysis env o a d t).state.status = .completed ∨
    (execute_analysis env o a d t).state.status = .failed :=
  (workflowBody_terminal env o _).1

/-- Claim C4 (amended): when `execute_task` succeeds it leaves the
analysis state unchanged, but when its underlying call fails it does
mutate the state: it appends exactly one entry
`"Task execution failed: <cause>"` to the error list (and changes no
other field) before re-raising; recording is therefore not done only by
the orchestrator. -/
theorem c4_executor_error_recording (s : AnalysisState) (raw msg : String) :
    execute_task (.ok raw) s = (.ok raw, s) ∧
    execute_task (.error msg) s =
      (.error msg,
       { s with errors := s.errors ++ ["Task execution failed: " ++ msg] }) :=
  ⟨rfl, rfl⟩

/-- Claim C4 counterexample: at a concrete state with an empty error
list, a failing `execute_task` call returns a state different from its
input — it has appended "Task execution failed: boom" to the error
list, contradicting the claim that the executor never mutates the state
and in particular never appends to the error list. -/
theorem c4_executor_mutates_state_counterexample :
    ¬ ((execute_task (.error "boom")
        { analysis_id := 1, document_id := 1 }).2
      = { analysis_id := 1, document_id := 1 }) ∧
    (execute_task (.error "boom")
        { analysis_id := 1, document_id := 1 }).2.errors
      = ["Task execution failed: boom"] := by
  constructor
  · decide
  · rfl

/-- Claim C8: `close_all` is total (its type is a plain function, so it
cannot fail, in particular not when no session was ever opened — then it
is the identity), it is idempotent, after any call the session map is
empty, and the orchestrator's `close` leaves zero open sessions. -/
theorem c8_close_all_idempotent (m : MCPServerManager) :
    m.close_all.sessions = [] ∧
    m.close_all.close_all = m.close_all ∧
    (m.sessions = [] → m.close_all = m) ∧
    (∀ o : Orchestrator, o.close.mcp_manager.sessions = []) := by
  refine ⟨rfl, rfl, ?_, fun o => rfl⟩
  intro h
  cases m with
  | mk servers sessions nextSession =>
    simp_all [MCPServerManager.close_all]

/-- Claim C7: parsing of a successful phase's structured result defaults
missing fields rather than failing: a claim dictionary without a type is
stored with type "unknown"; a verification result without a confidence
is stored with confidence 0 and without a status defaults to
"uncertain"; metadata keys absent from the parsed dictionary are stored
as nulls; and the fact-extraction phase stores exactly the
default-completed claims. -/
theorem c7_lenient_parse_defaults :
    (∀ d : ClaimDict, d.type = none →
      (mkExtractedClaim d).type = "unknown") ∧
    (∀ (ct : String) (p : VerifParsed), p.confidence = none →
      (mkVerification ct p).confidence = 0) ∧
    (∀ (ct : String) (p : VerifParsed), p.verification_status = none →
      (mkVerification ct p).verification_status = "uncertain") ∧
    (∀ (p : MetadataParsed) (md : MetadataDict), p.metadata = some md →
      (md.title = none → (mkDocumentMetadata p).title = none) ∧
      (md.publication_date = none →
        (mkDocumentMetadata p).publication_date = none) ∧
      (md.institution = none →
        (mkDocumentMetadata p).institution = none)) ∧
    (∀ env o c raw pf, env.hasExecutor "fact_extractor" = true →
      o.factTask = .ok raw → o.factParse raw = .ok pf →
      (phase_fact_extraction env o c).2.state.extracted_claims
        = c.state.extracted_claims
          ++ (pf.claims.getD []).map mkExtractedClaim) := by
  refine ⟨?_, ?_, ?_, ?_, ?_⟩
  · intro d h
    simp [mkExtractedClaim, h]
  · intro ct p h
    simp [mkVerification, h]
  · intro ct p h
    simp [mkVerification, h]
  · intro p md hm
    refine ⟨?_, ?_, ?_⟩ <;> intro h <;> simp [mkDocumentMetadata, hm, h]
  · intro env o c raw pf hE ht hp
    obtain ⟨raw2, pf2, ht2, hp2, -, -, hcl, -⟩ :=
      phase2_of_ok env o c (phase2_ok_of env o c hE raw pf ht hp)
    rw [ht] at ht2
    injection ht2 with hr
    subst hr
    rw [hp] at hp2
    injection hp2 with hpf
    subst hpf
    exact hcl

/-- Claim C10: for every successful Document Processing phase, the
stored metadata is exactly `mkDocumentMetadata` of the parsed result,
whose `abstract` and `keywords` are always `none` (the code never
passes them), and a missing `authors` key is stored as the empty list
rather than as `None`. -/
theorem c10_document_metadata_defaults (env : Env) (o : Oracle) (c : RunCtx)
    (hok : (phase_document_processing env o c).1 = .ok ()) :
    ∃ raw p, o.docTask = .ok raw ∧ o.docParse raw = .ok p ∧
      (phase_document_processing env o c).2.state.document_metadata
        = some (mkDocumentMetadata p) ∧
      (mkDocumentMetadata p).abstract = none ∧
      (mkDocumentMetadata p).keywords = none ∧
      ((p.metadata.getD {}).authors = none →
        (mkDocumentMetadata p).authors = some []) := by
  obtain ⟨raw, p, ht, hp, -, -, hmd, -⟩ := phase1_of_ok env o c hok
  refine ⟨raw, p, ht, hp, hmd, rfl, rfl, ?_⟩
  intro h
  simp [mkDocumentMetadata, h]

/-- Claim C2: whenever the Verification phase completes without failure
(started, as in every workflow run, with an empty verifications list),
the verifications list has exactly one result per extracted claim, the
executor is invoked exactly once per claim (sequentially, by the
structure of `verifyLoop`), and the i-th verification's `claim_text`
equals the i-th extracted claim's `text`. -/
theorem c2_verification_matches_claims (env : Env) (o : Oracle) (c : RunCtx)
    (h0 : c.state.verifications = [])
    (hok : (phase_verification env o c).1 = .ok ()) :
    (phase_verification env o c).2.state.extracted_claims
      = c.state.extracted_claims ∧
    (phase_verification env o c).2.state.verifications.length
      = c.state.extracted_claims.length ∧
    (phase_verification env o c).2.state.verifications.map
        (fun v => v.claim_text)
      = c.state.extracted_claims.map (fun cl => cl.text) ∧
    (∀ (i : Nat) (h1 : i <
        (phase_verification env o c).2.state.verifications.length)
      (h2 : i < c.state.extracted_claims.length),
      ((phase_verification env o c).2.state.verifications.get
          ⟨i, h1⟩).claim_text
        = (c.state.extracted_claims.get ⟨i, h2⟩).text) ∧
    (phase_verification env o c).2.trace.countP
        (Event.isCallOf "verification_specialist")
      = c.trace.countP (Event.isCallOf "verification_specialist")
        + c.state.extracted_claims.length := by
  obtain ⟨-, L, l, hvf, hmap, -, hcl, -, -, -, htr, hall, hlen⟩ :=
    phase3_of_ok env o c hok
  rw [h0] at hvf
  simp only [List.nil_append] at hvf
  have hmap2 : (phase_verification env o c).2.state.verifications.map
      (fun v => v.claim_text)
      = c.state.extracted_claims.map (fun cl => cl.text) := by
    rw [hvf, hmap]
  have hlen2 : (phase_verification env o c).2.state.verifications.length
      = c.state.extracted_claims.length := by
    have := congrArg List.length hmap2
    simpa using this
  refine ⟨hcl, hlen2, hmap2, ?_, ?_⟩
  · intro i h1 h2
    have := congrArg (fun xs => xs[i]?) hmap2
    simp only [List.getElem?_map] at this
    rw [List.getElem?_eq_getElem h1, List.getElem?_eq_getElem h2] at this
    simp at this
    simpa [List.get_eq_getElem] using this
  · rw [htr, List.countP_append, countP_isCallOf_self _ _ hall, hlen]

theorem workflowBody_cases (env : Env) (o : Oracle) (c : RunCtx) :
    (workflowBody env o c).state.status = .failed ∨
    ((workflowBody env o c).state.status = .completed ∧
     (workflowBody env o c).state.errors = c.state.errors) := by
  rcases h1 : phase_document_processing env o (c.setStatus .documentParsing)
    with ⟨r1, c1⟩
  cases r1 with
  | error msg =>
    left
    simp [workflowBody, h1, contPhase, failWorkflow_status]
  | ok u1 =>
    obtain ⟨_, _, _, _, _, herr1, _⟩ :=
      phase1_of_ok env o (c.setStatus .documentParsing) (by rw [h1])
    rw [h1] at herr1
    rcases h2 : phase_fact_extraction env o (c1.setStatus .claimExtraction)
      with ⟨r2, c2⟩
    cases r2 with
    | error msg =>
      left
      simp [workflowBody, h1, h2, contPhase, failWorkflow_status]
    | ok u2 =>
      obtain ⟨_, _, _, _, _, herr2, _⟩ :=
        phase2_of_ok env o (c1.setStatus .claimExtraction) (by rw [h2])
      rw [h2] at herr2
      rcases h3 : phase_verification env o (c2.setStatus .verification)
        with ⟨r3, c3⟩
      cases r3 with
      | error msg =>
        left
        simp [workflowBody, h1, h2, h3, contPhase, failWorkflow_status]
      | ok u3 =>
        obtain ⟨_, L3, l3, hvf3, hmap3, herr3, hcl3, hmd3, hrp3, hqa3,
            htr3, hall3, hlen3⟩ :=
          phase3_of_ok env o (c2.setStatus .verification) (by rw [h3])
        rw [h3] at herr3
        rcases h4 : phase_report_generation env o
            (c3.setStatus .reportGeneration) with ⟨r4, c4⟩
        cases r4 with
        | error msg =>
          left
          simp [workflowBody, h1, h2, h3, h4, contPhase, failWorkflow_status]
        | ok u4 =>
          obtain ⟨_, _, _, herr4, _⟩ :=
            phase4_of_ok env o (c3.setStatus .reportGeneration) (by rw [h4])
          rw [h4] at herr4
          rcases h5 : phase_quality_review env o
              (c4.setStatus .qualityReview) with ⟨r5, c5⟩
          cases r5 with
          | error msg =>
            left
            simp [workflowBody, h1, h2, h3, h4, h5, contPhase,
              failWorkflow_status]
          | ok u5 =>
            obtain ⟨_, _, _, _, _, herr5, _⟩ :=
              phase5_of_ok env o (c4.setStatus .qualityReview) (by rw [h5])
            rw [h5] at herr5
            right
            cases u1; cases u2; cases u3; cases u4; cases u5
            have hw : workflowBody env o c =
                ((c5.setStatus .completed).setCompletedAt).addLog
                  "orchestrator" "Analysis workflow completed successfully" := by
              simp [workflowBody, h1, h2, h3, h4, h5, contPhase]
            rw [hw]
            constructor
            · rfl
            · simp only [RunCtx.addLog, RunCtx.setCompletedAt,
                RunCtx.setStatus, AnalysisState.add_log]
              simp_all [RunCtx.setStatus]

/-- Claim C6: for every analysis in which all five phases complete
normally, the returned state has status `completed`, an empty error
list, and `completed_at ≥ started_at`; and (second conjunct) a
`completed` state never has a non-empty error list, for any oracle. -/
theorem c6_normal_completion :
    (∀ (env : Env) (o : Oracle) (a d : Int) (t : Nat), OracleOk env o →
      (execute_analysis env o a d t).state.status = .completed ∧
      (execute_analysis env o a d t).state.errors = [] ∧
      ∃ ts tc, (execute_analysis env o a d t).state.started_at = some ts ∧
        (execute_analysis env o a d t).state.completed_at = some tc ∧
        ts ≤ tc) ∧
    (∀ (env : Env) (o : Oracle) (a d : Int) (t : Nat),
      (execute_analysis env o a d t).state.status = .completed →
      (execute_analysis env o a d t).state.errors = []) := by
  constructor
  · intro env o a d t h
    obtain ⟨hst, herr, hsa, ⟨tc, hca, hck⟩, -⟩ :=
      workflowBody_ok env o
        ((initCtx a d t).addLog "orchestrator" "Analysis workflow started") h
    refine ⟨hst, herr.trans rfl, t, tc, hsa.trans rfl, hca, ?_⟩
    have : t + 2 ≤ tc := hck
    omega
  · intro env o a d t h
    rcases workflowBody_cases env o
        ((initCtx a d t).addLog "orchestrator" "Analysis workflow started")
      with hf | ⟨-, herr⟩
    · rw [show (execute_analysis env o a d t).state.status
          = (workflowBody env o ((initCtx a d t).addLog "orchestrator"
            "Analysis workflow started")).state.status from rfl, hf] at h
      exact absurd h (by decide)
    · rw [show (execute_analysis env o a d t).state.errors
          = (workflowBody env o ((initCtx a d t).addLog "orchestrator"
            "Analysis workflow started")).state.errors from rfl, herr]
      rfl

/-- Claim C9: when the Claim Extraction phase yields zero claims and the
remaining phases succeed, the workflow still reaches status `completed`,
the verifications list is empty, and the verification executor is never
invoked (zero verification-specialist calls in the whole trace),
whatever the verification oracle would have answered. -/
theorem c9_zero_claims_completes (env : Env) (o : Oracle) (a d : Int) (t : Nat)
    (h : OracleOk env o)
    (hzero : ∀ raw p, o.factTask = .ok raw → o.factParse raw = .ok p →
      p.claims.getD [] = []) :
    (execute_analysis env o a d t).state.status = .completed ∧
    (execute_analysis env o a d t).state.verifications = [] ∧
    (execute_analysis env o a d t).trace.countP
      (Event.isCallOf "verification_specialist") = 0 := by
  obtain ⟨hst, -, -, -, newClaims, hcl, ⟨raw, p, ht, hp, hnew⟩,
      ⟨L, hvf, hmap⟩, ⟨l, htr, hcnt⟩⟩ :=
    workflowBody_ok env o
      ((initCtx a d t).addLog "orchestrator" "Analysis workflow started") h
  have hz : newClaims = [] := by
    rw [hnew, hzero raw p ht hp]
    rfl
  subst hz
  have hinitcl : ((initCtx a d t).addLog "orchestrator"
      "Analysis workflow started").state.extracted_claims = [] := rfl
  have hinitvf : ((initCtx a d t).addLog "orchestrator"
      "Analysis workflow started").state.verifications = [] := rfl
  have hinittr : ((initCtx a d t).addLog "orchestrator"
      "Analysis workflow started").trace = [] := rfl
  rw [hinitcl] at hmap hcnt
  rw [hinitvf] at hvf
  rw [hinittr] at htr
  have hL : L = [] := by
    have := hmap
    simp at this
    exact this
  refine ⟨hst, ?_, ?_⟩
  · rw [show (execute_analysis env o a d t).state.verifications
        = (workflowBody env o ((initCtx a d t).addLog "orchestrator"
          "Analysis workflow started")).state.verifications from rfl,
      hvf, hL]
    rfl
  · rw [show (execute_analysis env o a d t).trace
        = (workflowBody env o ((initCtx a d t).addLog "orchestrator"
          "Analysis workflow started")).trace from rfl, htr]
    simpa using hcnt

/-- Claim C5: in the scenario where the Verification phase's second
claim-level executor call fails (the first succeeds), the final state
has status `failed`, its verifications list holds exactly the first
claim's result, and exactly one entry of the error list references
"Verification failed" (the error list also holds the executor-level and
workflow-level records of the same cause, which do not reference that
phrase provided the cause itself does not). -/
theorem c5_second_verification_failure (env : Env) (o : Oracle) (a d : Int) (t : Nat)
    (d1 d2 : ClaimDict) (rest : List ClaimDict)
    (hE1 : env.hasExecutor "document_processor" = true)
    (hE2 : env.hasExecutor "fact_extractor" = true)
    (hE3 : env.hasExecutor "verification_specialist" = true)
    (raw1 : String) (p1 : MetadataParsed)
    (ht1 : o.docTask = .ok raw1) (hp1 : o.docParse raw1 = .ok p1)
    (raw2 : String)
    (ht2 : o.factTask = .ok raw2)
    (hp2 : o.factParse raw2 = .ok { claims := some (d1 :: d2 :: rest) })
    (raw3 : String) (v1 : VerifParsed)
    (ht3 : o.verifTask 0 = .ok raw3) (hp3 : o.verifParse 0 raw3 = .ok v1)
    (msg : String) (ht4 : o.verifTask 1 = .error msg)
    (hmsg : strContains msg "Verification failed" = false) :
    (execute_analysis env o a d t).state.status = .failed ∧
    (execute_analysis env o a d t).state.verifications
      = [mkVerification (mkExtractedClaim d1).text v1] ∧
    (execute_analysis env o a d t).state.errors.countP
      (fun e => strContains e "Verification failed") = 1 := by
  have s1 := strContains_task_prefixed msg hmsg
  have s2 := strContains_verif_prefixed msg
  have s3 := strContains_workflow_prefixed msg hmsg
  have hw : execute_analysis env o a d t =
      workflowBody env o ((initCtx a d t).addLog "orchestrator"
        "Analysis workflow started") := rfl
  rw [hw]
  simp only [workflowBody, phase_document_processing, phase_fact_extraction,
    phase_verification, verifyLoop, runExecTask, execute_task,
    contPhase, failWorkflow, hE1, hE2, hE3, ht1, hp1, ht2, hp2, ht3, hp3,
    ht4, if_true, RunCtx.addLog, RunCtx.addError, RunCtx.setStatus,
    RunCtx.setCompletedAt, AnalysisState.add_log, AnalysisState.add_error,
    initCtx]
  simp [List.countP_cons, s1, s2, s3]

/-- Witness for C2 at a concrete one-claim context. -/
theorem c2_verification_matches_claims_witness :
    cW.state.verifications = [] ∧
    (phase_verification envW oracleW cW).1 = .ok () ∧
    (phase_verification envW oracleW cW).2.state.verifications.length
      = cW.state.extracted_claims.length :=
  ⟨rfl, rfl, (c2_verification_matches_claims envW oracleW cW rfl rfl).2.1⟩

/-- Witness for C6 at a concrete all-success environment and oracle. -/
theorem c6_normal_completion_witness :
    (execute_analysis envW oracleW 1 1 0).state.status = .completed ∧
    (execute_analysis envW oracleW 1 1 0).state.errors = [] := by
  have h : OracleOk envW oracleW :=
    ⟨rfl, rfl, rfl, rfl, rfl, ⟨"r1", p1W, rfl, rfl⟩, ⟨"r2", pfW, rfl, rfl⟩,
      fun j => ⟨"r3", vW, rfl, rfl⟩, ⟨"REPORT", rfl⟩,
      ⟨"r5", qaW, rfl, rfl⟩⟩
  obtain ⟨h1, h2, -⟩ := (c6_normal_completion).1 envW oracleW 1 1 0 h
  exact ⟨h1, h2⟩

/-- Witness for C5 at a concrete environment and oracle. -/
theorem c5_second_verification_failure_witness :
    (execute_analysis envW oracleFailW 1 1 0).state.status = .failed ∧
    (execute_analysis envW oracleFailW 1 1 0).state.verifications
      = [mkVerification (mkExtractedClaim d1W).text vW] ∧
    (execute_analysis envW oracleFailW 1 1 0).state.errors.countP
      (fun e => strContains e "Verification failed") = 1 :=
  c5_second_verification_failure envW oracleFailW 1 1 0 d1W d2W [] rfl rfl rfl
    "r1" p1W rfl rfl "r2" rfl rfl "r3" vW rfl rfl "boom" rfl (by decide)

/-- Witness for C7 at concrete parsed dictionaries. -/
theorem c7_lenient_parse_defaults_witness :
    (mkExtractedClaim d1W).type = "unknown" ∧
    (mkVerification "c1" { notes := some "n" }).confidence = 0 ∧
    (mkVerification "c1" { notes := some "n" }).verification_status
      = "uncertain" ∧
    (mkDocumentMetadata p1W).institution = none ∧
    (phase_fact_extraction envW oracleW cW0).2.state.extracted_claims
      = cW0.state.extracted_claims
        ++ (pfW.claims.getD []).map mkExtractedClaim :=
  ⟨c7_lenient_parse_defaults.1 d1W rfl, c7_lenient_parse_defaults.2.1 "c1" _ rfl, c7_lenient_parse_defaults.2.2.1 "c1" _ rfl,
   ((c7_lenient_parse_defaults.2.2.2.1 p1W { title := some (some "Study") } rfl).2.2) rfl,
   c7_lenient_parse_defaults.2.2.2.2 envW oracleW cW0 "r2" pfW rfl rfl rfl⟩

/-- Witness for C8 at a concrete manager with no open sessions. -/
theorem c8_close_all_idempotent_witness :
    MCPServerManager.close_all
        { servers := ["search"], sessions := [], nextSession := 0 }
      = { servers := ["search"], sessions := [], nextSession := 0 } :=
  (c8_close_all_idempotent _).2.2.1 rfl

/-- Witness for C9 at a concrete environment and zero-claim oracle. -/
theorem c9_zero_claims_completes_witness :
    (execute_analysis envW oracleZeroW 1 1 0).state.status = .completed ∧
    (execute_analysis envW oracleZeroW 1 1 0).state.verifications = [] := by
  have h : OracleOk envW oracleZeroW :=
    ⟨rfl, rfl, rfl, rfl, rfl, ⟨"r1", p1W, rfl, rfl⟩, ⟨"r2", {}, rfl, rfl⟩,
      fun j => ⟨"r3", vW, rfl, rfl⟩, ⟨"REPORT", rfl⟩,
      ⟨"r5", qaW, rfl, rfl⟩⟩
  have hzero : ∀ raw p, oracleZeroW.factTask = .ok raw →
      oracleZeroW.factParse raw = .ok p → p.claims.getD [] = [] := by
    intro raw p h1 h2
    have h2x : Except.ok (ε := String) ({} : FactParsed) = .ok p := h2
    injection h2x with e
    subst e
    rfl
  obtain ⟨h1, h2, -⟩ := c9_zero_claims_completes envW oracleZeroW 1 1 0 h hzero
  exact ⟨h1, h2⟩

/-- Witness for C10 at a concrete environment and oracle. -/
theorem c10_document_metadata_defaults_witness :
    (phase_document_processing envW oracleW cW0).2.state.document_metadata
      = some (mkDocumentMetadata p1W) ∧
    (mkDocumentMetadata p1W).abstract = none ∧
    (mkDocumentMetadata p1W).keywords = none := by
  obtain ⟨raw, p, ht, hp, hmd, hab, hk, -⟩ :=
    c10_document_metadata_defaults envW oracleW cW0 rfl
  have hpx : Except.ok (ε := String) p1W = .ok p := hp
  injection hpx with e
  subst e
  exact ⟨hmd, hab, hk⟩

end FactMarrow
